import Mathlib

/-!
Shallow embedding of the voting-system ledger core:
`src/blockchain/contracts/AdvancedVotingContract.sol` (namespace `AVC`) and
`src/blockchain/contracts/MultiSigVotingContract.sol` (namespace `MSV`).

Addresses are `Nat` (0 is the zero address), timestamps are `Nat` seconds,
`block.timestamp` is passed to every call as `now`.  Each external function
becomes `State → ... → Except String State`, written as a sequence of
`require` checks followed by the storage writes, exactly mirroring the
Solidity require/modifier order; `.error msg` is a revert with the source's
require-message, which by EVM semantics leaves the state untouched (`step`
returns the pre-state on error).  Solidity mappings become total functions
with the zero-value default, updated pointwise by `upd`.
-/

def upd {α : Type} (f : Nat → α) (k : Nat) (v : α) : Nat → α :=
  fun j => if j = k then v else f j

def isErr {α : Type} : Except String α → Bool
  | .ok _ => false
  | .error _ => true

/-- Solidity's `require(cond, msg)`: continue on success, revert with `msg`
otherwise. -/
def require (P : Prop) [Decidable P] (msg : String) : Except String Unit :=
  if P then .ok () else .error msg

namespace AVC

structure Candidate where
  id : Nat
  name : String
  matricNumber : String
  positionId : Nat
  bio : String
  voteCount : Nat
  isApproved : Bool
  approvedAt : Nat
  exists_ : Bool

def Candidate.zero : Candidate :=
  ⟨0, "", "", 0, "", 0, false, 0, false⟩

structure Position where
  id : Nat
  title : String
  description : String
  maxCandidates : Nat
  maxVotesPerVoter : Nat
  isActive : Bool
  candidateCount : Nat

def Position.zero : Position :=
  ⟨0, "", "", 0, 0, false, 0⟩

structure Election where
  id : Nat
  title : String
  description : String
  startTime : Nat
  endTime : Nat
  electionType : Nat
  isActive : Bool
  totalVotes : Nat
  totalPositions : Nat
  creator : Nat

def Election.zero : Election :=
  ⟨0, "", "", 0, 0, 0, false, 0, 0, 0⟩

structure Voter where
  voterAddress : Nat
  matricNumber : String
  isAuthorized : Bool
  authorizedAt : Nat
  hasVotedForPosition : Nat → Bool
  votedCandidateForPosition : Nat → Nat
  totalVotesCast : Nat

def Voter.zero : Voter :=
  ⟨0, "", false, 0, fun _ => false, fun _ => 0, 0⟩

structure State where
  owner : Nat
  currentElectionId : Nat
  contractPaused : Bool
  elections : Nat → Election
  positions : Nat → Position
  candidates : Nat → Candidate
  voters : Nat → Voter
  positionCandidates : Nat → Nat → List Nat
  electionPositions : Nat → List Nat
  electionCount : Nat
  positionCount : Nat
  candidateCount : Nat
  voterCount : Nat
  authorizedAdmins : Nat → Bool
  failedVoteAttempts : Nat → Nat
  voteLockoutUntil : Nat → Nat

/-- The constructor: fresh contract storage with `owner = deployer`. -/
def initState (deployer : Nat) : State where
  owner := deployer
  currentElectionId := 0
  contractPaused := false
  elections := fun _ => Election.zero
  positions := fun _ => Position.zero
  candidates := fun _ => Candidate.zero
  voters := fun _ => Voter.zero
  positionCandidates := fun _ _ => []
  electionPositions := fun _ => []
  electionCount := 0
  positionCount := 0
  candidateCount := 0
  voterCount := 0
  authorizedAdmins := fun _ => false
  failedVoteAttempts := fun _ => 0
  voteLockoutUntil := fun _ => 0

def MAX_FAILED_ATTEMPTS : Nat := 3
def VOTE_LOCKOUT_PERIOD : Nat := 3600
def MAX_POSITIONS_PER_ELECTION : Nat := 20
def MAX_CANDIDATES_PER_POSITION : Nat := 50
def MAX_ELECTION_DURATION : Nat := 2592000
def MIN_ELECTION_DURATION : Nat := 3600

/-- The `onlyAuthorizedAdmin` modifier's condition:
`msg.sender == owner || authorizedAdmins[msg.sender]`. -/
def isAuthorizedAdminOrOwner (s : State) (caller : Nat) : Bool :=
  caller == s.owner || s.authorizedAdmins caller

/-- Storage writes of a successful `createElection`. -/
def createElectionEffect (s : State) (caller : Nat) (title descr : String)
    (startTime endTime electionType : Nat) (positionIds : List Nat) : State :=
  let ec := s.electionCount + 1
  let old := s.elections ec
  { s with
    electionCount := ec
    currentElectionId := ec
    elections := upd s.elections ec { old with
      id := ec, title := title, description := descr
      startTime := startTime, endTime := endTime, electionType := electionType
      isActive := true, creator := caller, totalPositions := positionIds.length }
    electionPositions := upd s.electionPositions ec (s.electionPositions ec ++ positionIds) }

def createElection (s : State) (caller now : Nat) (title descr : String)
    (startTime endTime electionType : Nat) (positionIds : List Nat) :
    Except String State := do
  require (isAuthorizedAdminOrOwner s caller) "Only authorized admin can perform this action"
  require (¬ s.contractPaused) "Contract is paused"
  require (endTime > startTime) "End time must be after start time"
  require (startTime > now) "Start time must be in the future"
  require (endTime - startTime ≥ MIN_ELECTION_DURATION) "Election duration too short"
  require (endTime - startTime ≤ MAX_ELECTION_DURATION) "Election duration too long"
  require (positionIds.length > 0) "At least one position required"
  require (positionIds.length ≤ MAX_POSITIONS_PER_ELECTION) "Too many positions"
  require (electionType ≥ 1 ∧ electionType ≤ 3) "Invalid election type"
  require (∀ p ∈ positionIds, (s.positions p).isActive) "Position is not active"
  pure (createElectionEffect s caller title descr startTime endTime electionType positionIds)

/-- Storage writes of a successful `createPosition`. -/
def createPositionEffect (s : State) (title descr : String)
    (maxCandidates maxVotesPerVoter : Nat) : State :=
  let pc := s.positionCount + 1
  let old := s.positions pc
  { s with
    positionCount := pc
    positions := upd s.positions pc { old with
      id := pc, title := title, description := descr
      maxCandidates := maxCandidates, maxVotesPerVoter := maxVotesPerVoter
      isActive := true } }

def createPosition (s : State) (caller _now : Nat) (title descr : String)
    (maxCandidates maxVotesPerVoter : Nat) : Except String State := do
  require (isAuthorizedAdminOrOwner s caller) "Only authorized admin can perform this action"
  require (title.length > 0) "Position title cannot be empty"
  require (maxCandidates > 0 ∧ maxCandidates ≤ MAX_CANDIDATES_PER_POSITION) "Invalid max candidates"
  require (maxVotesPerVoter > 0) "Max votes per voter must be greater than 0"
  pure (createPositionEffect s title descr maxCandidates maxVotesPerVoter)

/-- Storage writes of a successful `addCandidate`. -/
def addCandidateEffect (s : State) (now eId pId : Nat)
    (name matricNumber bio : String) : State :=
  let cc := s.candidateCount + 1
  let old := s.candidates cc
  { s with
    candidateCount := cc
    candidates := upd s.candidates cc { old with
      id := cc, name := name, matricNumber := matricNumber, positionId := pId
      bio := bio, isApproved := true, approvedAt := now, exists_ := true }
    positionCandidates := upd s.positionCandidates eId
      (upd (s.positionCandidates eId) pId (s.positionCandidates eId pId ++ [cc]))
    positions := upd s.positions pId
      { s.positions pId with candidateCount := (s.positions pId).candidateCount + 1 } }

def addCandidate (s : State) (caller now eId pId : Nat)
    (name matricNumber bio : String) : Except String State := do
  require (isAuthorizedAdminOrOwner s caller) "Only authorized admin can perform this action"
  require (eId ≤ s.electionCount ∧ eId > 0) "Election does not exist"
  require (pId ≤ s.positionCount ∧ pId > 0) "Position does not exist"
  require ((s.positions pId).isActive) "Position is not active"
  require (name.length > 0) "Candidate name cannot be empty"
  require (matricNumber.length > 0) "Matric number cannot be empty"
  require ((s.elections eId).isActive) "Election is not active"
  require (now < (s.elections eId).startTime) "Cannot add candidates after election starts"
  require (pId ∈ s.electionPositions eId) "Position is not part of this election"
  require ((s.positionCandidates eId pId).length < (s.positions pId).maxCandidates)
    "Maximum candidates reached for this position"
  pure (addCandidateEffect s now eId pId name matricNumber bio)

/-- Storage writes of a successful `authorizeVoter`. -/
def authorizeVoterEffect (s : State) (now voterAddress : Nat) (matricNumber : String) : State :=
  let v := s.voters voterAddress
  { s with
    voters := upd s.voters voterAddress { v with
      voterAddress := voterAddress, matricNumber := matricNumber
      isAuthorized := true, authorizedAt := now }
    voterCount := s.voterCount + 1 }

def authorizeVoter (s : State) (caller now voterAddress : Nat)
    (matricNumber : String) : Except String State := do
  require (isAuthorizedAdminOrOwner s caller) "Only authorized admin can perform this action"
  require (voterAddress ≠ 0) "Invalid voter address"
  require (matricNumber.length > 0) "Matric number cannot be empty"
  require (¬ (s.voters voterAddress).isAuthorized) "Voter already authorized"
  pure (authorizeVoterEffect s now voterAddress matricNumber)

/-- Storage writes of a successful `vote`. -/
def voteEffect (s : State) (caller eId pId cId : Nat) : State :=
  let v := s.voters caller
  { s with
    voters := upd s.voters caller { v with
      hasVotedForPosition := upd v.hasVotedForPosition pId true
      votedCandidateForPosition := upd v.votedCandidateForPosition pId cId
      totalVotesCast := v.totalVotesCast + 1 }
    candidates := upd s.candidates cId
      { s.candidates cId with voteCount := (s.candidates cId).voteCount + 1 }
    elections := upd s.elections eId
      { s.elections eId with totalVotes := (s.elections eId).totalVotes + 1 }
    failedVoteAttempts := upd s.failedVoteAttempts caller 0 }

def vote (s : State) (caller now eId pId cId : Nat) : Except String State := do
  require ((s.voters caller).isAuthorized) "You are not authorized to vote"
  require (¬ s.contractPaused) "Contract is paused"
  require (now ≥ s.voteLockoutUntil caller) "Voter is temporarily locked out"
  require (eId ≤ s.electionCount ∧ eId > 0) "Election does not exist"
  require ((s.elections eId).isActive) "Election is not active"
  require (now ≥ (s.elections eId).startTime) "Election has not started yet"
  require (now ≤ (s.elections eId).endTime) "Election has ended"
  require (pId ≤ s.positionCount ∧ pId > 0) "Position does not exist"
  require ((s.positions pId).isActive) "Position is not active"
  require ((s.candidates cId).exists_) "Candidate does not exist"
  require ((s.candidates cId).positionId = pId) "Candidate not running for this position"
  require ((s.candidates cId).isApproved) "Candidate not approved"
  require (¬ (s.voters caller).hasVotedForPosition pId) "Already voted for this position"
  require (cId ∈ s.positionCandidates eId pId) "Candidate not valid for this election and position"
  pure (voteEffect s caller eId pId cId)

def endElection (s : State) (caller _now eId : Nat) : Except String State := do
  require (isAuthorizedAdminOrOwner s caller) "Only authorized admin can perform this action"
  require (eId ≤ s.electionCount ∧ eId > 0) "Election does not exist"
  require ((s.elections eId).isActive) "Election is not active"
  pure { s with elections := upd s.elections eId { s.elections eId with isActive := false } }

def addAuthorizedAdmin (s : State) (caller _now admin : Nat) : Except String State := do
  require (caller = s.owner) "Only owner can perform this action"
  require (admin ≠ 0) "Invalid admin address"
  require (¬ s.authorizedAdmins admin) "Admin already authorized"
  pure { s with authorizedAdmins := upd s.authorizedAdmins admin true }

def removeAuthorizedAdmin (s : State) (caller _now admin : Nat) : Except String State := do
  require (caller = s.owner) "Only owner can perform this action"
  require (s.authorizedAdmins admin) "Admin not authorized"
  pure { s with authorizedAdmins := upd s.authorizedAdmins admin false }

def togglePause (s : State) (caller _now : Nat) : Except String State := do
  require (caller = s.owner) "Only owner can perform this action"
  pure { s with contractPaused := ¬ s.contractPaused }

def transferOwnership (s : State) (caller _now newOwner : Nat) : Except String State := do
  require (caller = s.owner) "Only owner can perform this action"
  require (newOwner ≠ 0) "Invalid new owner address"
  require (newOwner ≠ s.owner) "New owner is the same as current owner"
  pure { s with owner := newOwner }

def emergencyPause (s : State) (caller _now : Nat) : Except String State := do
  require (caller = s.owner) "Only owner can perform this action"
  pure { s with contractPaused := true }

/-- Internal helper `_handleFailedVote` (never called by any public function). -/
def handleFailedVote (s : State) (voter now : Nat) : State :=
  let n := s.failedVoteAttempts voter + 1
  let s1 := { s with failedVoteAttempts := upd s.failedVoteAttempts voter n }
  if n ≥ MAX_FAILED_ATTEMPTS then
    { s1 with voteLockoutUntil := upd s1.voteLockoutUntil voter (now + VOTE_LOCKOUT_PERIOD) }
  else s1

/-- View `getPositionInfo`: (title, description, maxCandidates, maxVotesPerVoter,
isActive, totalCandidates). -/
def getPositionInfo (s : State) (pId : Nat) :
    Except String (String × String × Nat × Nat × Bool × Nat) := do
  require (pId ≤ s.positionCount ∧ pId > 0) "Position does not exist"
  require ((s.positions pId).isActive) "Position is not active"
  let p := s.positions pId
  pure (p.title, p.description, p.maxCandidates, p.maxVotesPerVoter, p.isActive, p.candidateCount)

/-- One external call to the contract, with caller identity and block timestamp. -/
inductive Op where
  | createElection (caller now : Nat) (title descr : String)
      (startTime endTime electionType : Nat) (positionIds : List Nat)
  | createPosition (caller now : Nat) (title descr : String)
      (maxCandidates maxVotesPerVoter : Nat)
  | addCandidate (caller now eId pId : Nat) (name matricNumber bio : String)
  | authorizeVoter (caller now voterAddress : Nat) (matricNumber : String)
  | vote (caller now eId pId cId : Nat)
  | endElection (caller now eId : Nat)
  | addAuthorizedAdmin (caller now admin : Nat)
  | removeAuthorizedAdmin (caller now admin : Nat)
  | togglePause (caller now : Nat)
  | transferOwnership (caller now newOwner : Nat)
  | emergencyPause (caller now : Nat)

def runOp (s : State) : Op → Except String State
  | .createElection c n t d st en ty ps => createElection s c n t d st en ty ps
  | .createPosition c n t d mc mv => createPosition s c n t d mc mv
  | .addCandidate c n e p nm m b => addCandidate s c n e p nm m b
  | .authorizeVoter c n a m => authorizeVoter s c n a m
  | .vote c n e p cd => vote s c n e p cd
  | .endElection c n e => endElection s c n e
  | .addAuthorizedAdmin c n a => addAuthorizedAdmin s c n a
  | .removeAuthorizedAdmin c n a => removeAuthorizedAdmin s c n a
  | .togglePause c n => togglePause s c n
  | .transferOwnership c n o => transferOwnership s c n o
  | .emergencyPause c n => emergencyPause s c n

/-- Transaction semantics: a reverted call leaves the state unchanged. -/
def step (s : State) (op : Op) : State :=
  match runOp s op with
  | .ok s' => s'
  | .error _ => s

def run (s : State) : List Op → State
  | [] => s
  | op :: tr => run (step s op) tr

/-- The conjunction of the checks `vote` performs, in source order. -/
def votePre (s : State) (caller now eId pId cId : Nat) : Prop :=
  (s.voters caller).isAuthorized ∧
  ¬ s.contractPaused ∧
  now ≥ s.voteLockoutUntil caller ∧
  (eId ≤ s.electionCount ∧ eId > 0) ∧
  (s.elections eId).isActive ∧
  now ≥ (s.elections eId).startTime ∧
  now ≤ (s.elections eId).endTime ∧
  (pId ≤ s.positionCount ∧ pId > 0) ∧
  (s.positions pId).isActive ∧
  (s.candidates cId).exists_ ∧
  (s.candidates cId).positionId = pId ∧
  (s.candidates cId).isApproved ∧
  ¬ (s.voters caller).hasVotedForPosition pId ∧
  cId ∈ s.positionCandidates eId pId

/-- Well-formedness facts holding in every reachable contract state: an active
position has an in-range id, and a candidate registered under an
(election, position) pair implies the position is in that election's snapshot. -/
def WF (s : State) : Prop :=
  (∀ p, (s.positions p).isActive → 1 ≤ p ∧ p ≤ s.positionCount) ∧
  (∀ e p c, c ∈ s.positionCandidates e p → p ∈ s.electionPositions e)

/-- The spec's listed preconditions for `vote` (§4.2), with the last one in its
per-position form (the form the code actually enforces; see the C1 theorems). -/
def voteSpecPre (s : State) (caller now eId pId cId : Nat) : Prop :=
  (s.voters caller).isAuthorized ∧
  ¬ s.contractPaused ∧
  now ≥ s.voteLockoutUntil caller ∧
  (eId ≤ s.electionCount ∧ eId > 0) ∧
  (s.elections eId).isActive ∧
  now ≥ (s.elections eId).startTime ∧
  now ≤ (s.elections eId).endTime ∧
  (s.positions pId).isActive ∧
  pId ∈ s.electionPositions eId ∧
  (s.candidates cId).exists_ ∧
  (s.candidates cId).isApproved ∧
  (s.candidates cId).positionId = pId ∧
  cId ∈ s.positionCandidates eId pId ∧
  ¬ (s.voters caller).hasVotedForPosition pId

/-- Follows the spec's wording for "the voter has no recorded choice for this
(election, position) pair": reconstructed from the call history, because the
contract state itself records choices per position only.  True when some
`vote` call by `voter` for exactly this election/position pair succeeded
along the trace. -/
def votedPairInTrace (s : State) (tr : List Op) (voter eId pId : Nat) : Bool :=
  match tr with
  | [] => false
  | op :: rest =>
    (match op with
     | .vote c _ e p _ => c == voter && e == eId && p == pId && !(isErr (runOp s op))
     | _ => false) || votedPairInTrace (step s op) rest voter eId pId

/-- Sum of the vote counters of the candidates registered under the
(election, position) pair. -/
def candTally (s : State) (eId pId : Nat) : Nat :=
  ((s.positionCandidates eId pId).map (fun c => (s.candidates c).voteCount)).sum

/-- Sum of the vote counters of all candidates registered under the election,
across all created positions. -/
def electionTally (s : State) (eId : Nat) : Nat :=
  ((List.range' 1 s.positionCount).map (fun p => candTally s eId p)).sum

/-- Number of `vote` calls targeting `eId` that succeed along the trace. -/
def succVotesFor (s : State) (tr : List Op) (eId : Nat) : Nat :=
  match tr with
  | [] => 0
  | op :: rest =>
    (match op with
     | .vote _ _ e _ _ => if e = eId ∧ isErr (runOp s op) = false then 1 else 0
     | _ => 0) + succVotesFor (step s op) rest eId

/-- Modelled from the spec: the §7 error-taxonomy class "StateError"
("operation illegal in current entity state: election not active, outside time
window, already voted, already authorized…"), restricted to the require
messages of this contract.  "You are not authorized to vote" is explicitly an
AuthorizationError in §7 ("caller lacks the required role: … not an
authorized voter"), and the existence checks on malformed ids are
ValidationErrors, so neither is listed here. -/
def isStateErrorMsg (msg : String) : Bool :=
  msg ∈ ["Contract is paused", "Voter is temporarily locked out",
         "Election is not active", "Election has not started yet",
         "Election has ended", "Position is not active",
         "Candidate not approved", "Already voted for this position",
         "Voter already authorized"]

/-- Is the call one of `addAuthorizedAdmin` / `removeAuthorizedAdmin`? -/
def isAdminSetOp : Op → Bool
  | .addAuthorizedAdmin _ _ _ => true
  | .removeAuthorizedAdmin _ _ _ => true
  | _ => false

/-- Is the call a `vote` call that succeeds in state `s`? -/
def isSuccessfulVote (s : State) (op : Op) : Bool :=
  match op with
  | .vote _ _ _ _ _ => !(isErr (runOp s op))
  | _ => false

end AVC

namespace MSV

inductive ProposalType where
  | PARAMETER_CHANGE
  | ADMIN_ADDITION
  | ADMIN_REMOVAL
  | EMERGENCY_ACTION
  | CONTRACT_UPGRADE
deriving DecidableEq

/-- The `bytes executionData` payloads the contract itself decodes: an
abi-encoded address (for admin addition/removal), an abi-encoded self-call to
`changeRequirement` (for parameter changes), or anything else. -/
inductive ExecData where
  | addrData (a : Nat)
  | reqData (newRequired : Nat)
  | rawData
deriving DecidableEq

structure Transaction where
  toAddr : Nat
  value : Nat
  dataStr : String
  executed : Bool
  confirmationCount : Nat
  createdAt : Nat
  description : String

def Transaction.zero : Transaction :=
  ⟨0, 0, "", false, 0, 0, ""⟩

structure Proposal where
  id : Nat
  title : String
  description : String
  proposer : Nat
  createdAt : Nat
  votingDeadline : Nat
  forVotes : Nat
  againstVotes : Nat
  abstainVotes : Nat
  executed : Bool
  proposalType : ProposalType
  executionData : ExecData

def Proposal.zero : Proposal :=
  ⟨0, "", "", 0, 0, 0, 0, 0, 0, false, .PARAMETER_CHANGE, .rawData⟩

structure State where
  admins : List Nat
  requiredConfirmations : Nat
  proposalCount : Nat
  transactionCount : Nat
  transactions : Nat → Transaction
  isConfirmed : Nat → Nat → Bool
  isAdmin : Nat → Bool
  proposals : Nat → Proposal
  votes : Nat → Nat → Nat
  hasVoted : Nat → Nat → Bool

def MAX_ADMINS : Nat := 20
def MIN_VOTING_PERIOD : Nat := 86400
def MAX_VOTING_PERIOD : Nat := 2592000

/-- The `validRequirement` modifier's condition. -/
def validRequirement (adminCount required : Nat) : Prop :=
  adminCount ≤ MAX_ADMINS ∧ required ≤ adminCount ∧ required > 0

instance (adminCount required : Nat) : Decidable (validRequirement adminCount required) := by
  unfold validRequirement; infer_instance

/-- The constructor. -/
def initState (adminList : List Nat) (required : Nat) : Except String State := do
  require (validRequirement adminList.length required) "Invalid requirement"
  require (adminList.length > 0) "Admins required"
  require (∀ a ∈ adminList, a ≠ 0) "Invalid admin address"
  require (adminList.Nodup) "Duplicate admin"
  pure {
    admins := adminList
    requiredConfirmations := required
    proposalCount := 0
    transactionCount := 0
    transactions := fun _ => Transaction.zero
    isConfirmed := fun _ _ => false
    isAdmin := fun a => adminList.contains a
    proposals := fun _ => Proposal.zero
    votes := fun _ _ => 0
    hasVoted := fun _ _ => false }

def isTransactionConfirmed (s : State) (tid : Nat) : Bool :=
  decide (s.requiredConfirmations ≤ (s.transactions tid).confirmationCount)

/-- Marking a transaction executed (the storage write of `executeTransaction`). -/
def executeEffect (s : State) (tid : Nat) : State :=
  { s with transactions := upd s.transactions tid { s.transactions tid with executed := true } }

/-- Public `executeTransaction` (note: it has no `onlyAdmin` modifier).
`extOk` is whether the low-level call `txn.to.call{value}(data)` to the
external target succeeds; when it fails, `require(success)` reverts
everything, including the `executed := true` write made just before it. -/
def executeTransaction (s : State) (tid : Nat) (extOk : Bool) : Except String State := do
  require (tid < s.transactionCount) "Transaction does not exist"
  require (¬ (s.transactions tid).executed) "Transaction already executed"
  require (isTransactionConfirmed s tid) "Transaction not confirmed"
  require (extOk) "Transaction execution failed"
  pure (executeEffect s tid)

/-- Recording a confirmation: set the per-admin bit, bump the counter. -/
def confirmEffect (s : State) (caller tid : Nat) : State :=
  let t := s.transactions tid
  { s with
    isConfirmed := upd s.isConfirmed tid (upd (s.isConfirmed tid) caller true)
    transactions := upd s.transactions tid
      { t with confirmationCount := t.confirmationCount + 1 } }

def confirmTransaction (s : State) (caller tid : Nat) (extOk : Bool) : Except String State := do
  require (s.isAdmin caller) "Not an admin"
  require (tid < s.transactionCount) "Transaction does not exist"
  require (¬ s.isConfirmed tid caller) "Transaction already confirmed"
  let s1 := confirmEffect s caller tid
  if isTransactionConfirmed s1 tid then executeTransaction s1 tid extOk
  else pure s1

/-- Appending a fresh pending transaction record. -/
def submitEffect (s : State) (now toAddr value : Nat) (dataStr descr : String) : State :=
  { s with
    transactions := upd s.transactions s.transactionCount
      ⟨toAddr, value, dataStr, false, 0, now, descr⟩
    transactionCount := s.transactionCount + 1 }

def submitTransaction (s : State) (caller now toAddr value : Nat) (dataStr descr : String)
    (extOk : Bool) : Except String State := do
  require (s.isAdmin caller) "Not an admin"
  confirmTransaction (submitEffect s now toAddr value dataStr descr) caller s.transactionCount extOk

/-- Clearing a confirmation: unset the per-admin bit, decrement the counter. -/
def revokeEffect (s : State) (caller tid : Nat) : State :=
  let t := s.transactions tid
  { s with
    isConfirmed := upd s.isConfirmed tid (upd (s.isConfirmed tid) caller false)
    transactions := upd s.transactions tid
      { t with confirmationCount := t.confirmationCount - 1 } }

def revokeConfirmation (s : State) (caller tid : Nat) : Except String State := do
  require (s.isAdmin caller) "Not an admin"
  require (tid < s.transactionCount) "Transaction does not exist"
  require (¬ (s.transactions tid).executed) "Transaction already executed"
  require (s.isConfirmed tid caller) "Transaction not confirmed"
  require ((s.transactions tid).confirmationCount ≠ 0) "Arithmetic underflow"
  pure (revokeEffect s caller tid)

def createProposal (s : State) (caller now : Nat) (title descr : String)
    (votingPeriod : Nat) (ptype : ProposalType) (payload : ExecData) :
    Except String State := do
  require (s.isAdmin caller) "Not an admin"
  require (title.length > 0) "Title cannot be empty"
  require (votingPeriod ≥ MIN_VOTING_PERIOD ∧ votingPeriod ≤ MAX_VOTING_PERIOD)
    "Invalid voting period"
  let pid := s.proposalCount
  pure { s with
    proposals := upd s.proposals pid
      ⟨pid, title, descr, caller, now, now + votingPeriod, 0, 0, 0, false, ptype, payload⟩
    proposalCount := pid + 1 }

def voteOnProposal (s : State) (caller now pid voteVal : Nat) : Except String State := do
  require (s.isAdmin caller) "Not an admin"
  require (pid < s.proposalCount) "Proposal does not exist"
  require (voteVal ≥ 1 ∧ voteVal ≤ 3) "Invalid vote"
  require (¬ s.hasVoted pid caller) "Already voted"
  require (now ≤ (s.proposals pid).votingDeadline) "Voting period ended"
  let p := s.proposals pid
  let p' :=
    if voteVal = 1 then { p with forVotes := p.forVotes + 1 }
    else if voteVal = 2 then { p with againstVotes := p.againstVotes + 1 }
    else { p with abstainVotes := p.abstainVotes + 1 }
  pure { s with
    hasVoted := upd s.hasVoted pid (upd (s.hasVoted pid) caller true)
    votes := upd s.votes pid (upd (s.votes pid) caller voteVal)
    proposals := upd s.proposals pid p' }

/-- `changeRequirement`: only reachable by the contract calling itself
(`msg.sender == address(this)`). -/
def changeRequirementSelf (s : State) (required : Nat) : Except String State := do
  require (validRequirement s.admins.length required) "Invalid requirement"
  pure { s with requiredConfirmations := required }

/-- Internal `_addAdmin`, used by `executeProposal`. -/
def addAdminInternal (s : State) (admin : Nat) : Except String State := do
  require (¬ s.isAdmin admin) "Admin already exists"
  require (validRequirement (s.admins.length + 1) s.requiredConfirmations) "Invalid requirement"
  require (admin ≠ 0) "Invalid admin address"
  require (s.admins.length < MAX_ADMINS) "Maximum admins reached"
  pure { s with isAdmin := upd s.isAdmin admin true, admins := s.admins ++ [admin] }

/-- The `_removeAdmin` array loop: overwrite the first occurrence of `a` with
the last array element, then pop. -/
def swapRemove (l : List Nat) (a : Nat) : List Nat :=
  match l.findIdx? (fun x => x == a) with
  | none => l
  | some i => (l.set i (l.getLastD 0)).dropLast

/-- Internal `_removeAdmin`, used by `executeProposal`. -/
def removeAdminInternal (s : State) (admin : Nat) : Except String State := do
  require (s.isAdmin admin) "Admin does not exist"
  require (s.admins.length > 1) "Cannot remove last admin"
  require (s.admins.length - 1 ≥ s.requiredConfirmations) "Would break requirement"
  pure { s with
    isAdmin := upd s.isAdmin admin false
    admins := swapRemove s.admins admin }

/-- The "Execute based on proposal type" dispatch at the end of
`executeProposal`, applied to the state `s1` in which the proposal is already
marked executed.  A failed `address(this).call` for a parameter change only
clears the `success` flag (no revert); a failed internal `_addAdmin` /
`_removeAdmin` or a payload that does not abi-decode to an address reverts. -/
def executeDispatch (s1 : State) (p : Proposal) : Except String State :=
  match p.proposalType with
  | .PARAMETER_CHANGE =>
    match p.executionData with
    | .reqData r =>
      match changeRequirementSelf s1 r with
      | .ok s2 => pure s2
      | .error _ => pure s1
    | _ => pure s1
  | .ADMIN_ADDITION =>
    match p.executionData with
    | .addrData a => addAdminInternal s1 a
    | _ => .error "abi decoding failed"
  | .ADMIN_REMOVAL =>
    match p.executionData with
    | .addrData a => removeAdminInternal s1 a
    | _ => .error "abi decoding failed"
  | .EMERGENCY_ACTION => pure s1
  | .CONTRACT_UPGRADE => pure s1

def executeProposal (s : State) (caller now pid : Nat) : Except String State := do
  require (s.isAdmin caller) "Not an admin"
  require (pid < s.proposalCount) "Proposal does not exist"
  let p := s.proposals pid
  require (now > p.votingDeadline) "Voting period not ended"
  require (¬ p.executed) "Proposal already executed"
  require (p.forVotes > p.againstVotes) "Proposal not passed"
  require (p.forVotes ≥ s.requiredConfirmations) "Insufficient votes"
  let s1 := { s with proposals := upd s.proposals pid { p with executed := true } }
  executeDispatch s1 p

/-- One external call to the multisig contract.  `changeRequirement` carries no
caller because its `msg.sender == address(this)` gate means it is only ever
reached by the contract calling itself through a confirmed transaction payload. -/
inductive Op where
  | submitTransaction (caller now toAddr value : Nat) (dataStr descr : String) (extOk : Bool)
  | confirmTransaction (caller now tid : Nat) (extOk : Bool)
  | revokeConfirmation (caller now tid : Nat)
  | executeTransaction (caller now tid : Nat) (extOk : Bool)
  | createProposal (caller now : Nat) (title descr : String) (votingPeriod : Nat)
      (ptype : ProposalType) (payload : ExecData)
  | voteOnProposal (caller now pid voteVal : Nat)
  | executeProposal (caller now pid : Nat)
  | changeRequirement (now required : Nat)

def runOp (s : State) : Op → Except String State
  | .submitTransaction c n t v d ds ok => submitTransaction s c n t v d ds ok
  | .confirmTransaction c _ t ok => confirmTransaction s c t ok
  | .revokeConfirmation c _ t => revokeConfirmation s c t
  | .executeTransaction _ _ t ok => executeTransaction s t ok
  | .createProposal c n t d vp ty pl => createProposal s c n t d vp ty pl
  | .voteOnProposal c n p v => voteOnProposal s c n p v
  | .executeProposal c n p => executeProposal s c n p
  | .changeRequirement _ r => changeRequirementSelf s r

/-- Transaction semantics: a reverted call leaves the state unchanged. -/
def step (s : State) (op : Op) : State :=
  match runOp s op with
  | .ok s' => s'
  | .error _ => s

def run (s : State) : List Op → State
  | [] => s
  | op :: tr => run (step s op) tr

/-- Every executed transaction reached the confirmation threshold. -/
def TxInv (s : State) : Prop :=
  ∀ t, (s.transactions t).executed = true →
    s.requiredConfirmations ≤ (s.transactions t).confirmationCount

/-- The admin-set invariant `0 < requiredConfirmations ≤ |admins| ≤ MAX_ADMINS`. -/
def validReq (s : State) : Prop :=
  0 < s.requiredConfirmations ∧ s.requiredConfirmations ≤ s.admins.length ∧
  s.admins.length ≤ MAX_ADMINS

/-- The spec's conditions for proposal execution: strictly past the deadline,
not yet executed, majority, and meeting the confirmation threshold. -/
def executeProposalPre (s : State) (now pid : Nat) : Prop :=
  now > (s.proposals pid).votingDeadline ∧
  (s.proposals pid).executed = false ∧
  (s.proposals pid).forVotes > (s.proposals pid).againstVotes ∧
  (s.proposals pid).forVotes ≥ s.requiredConfirmations

/-- Fixture: the quorum deployed with admins [1, 2, 3] and
`requiredConfirmations = 2`. -/
def mInit3 : State where
  admins := [1, 2, 3]
  requiredConfirmations := 2
  proposalCount := 0
  transactionCount := 0
  transactions := fun _ => Transaction.zero
  isConfirmed := fun _ _ => false
  isAdmin := fun a => [1, 2, 3].contains a
  proposals := fun _ => Proposal.zero
  votes := fun _ _ => 0
  hasVoted := fun _ _ => false

/-- Fixture: admin 1 has submitted transaction 0 (auto-confirmed once). -/
def m3afterSubmit : State :=
  step mInit3 (.submitTransaction 1 0 9 0 "d" "desc" true)

/-- Fixture: admin 2 has added the second confirmation to transaction 0,
which therefore auto-executed. -/
def m3afterConfirm : State :=
  step m3afterSubmit (.confirmTransaction 2 0 0 true)

/-- Fixture: the quorum deployed with admins [1, 2] and
`requiredConfirmations = 2`. -/
def mInit2 : State where
  admins := [1, 2]
  requiredConfirmations := 2
  proposalCount := 0
  transactionCount := 0
  transactions := fun _ => Transaction.zero
  isConfirmed := fun _ _ => false
  isAdmin := fun a => [1, 2].contains a
  proposals := fun _ => Proposal.zero
  votes := fun _ _ => 0
  hasVoted := fun _ _ => false

end MSV

/-! ## Concrete fixtures used by witnesses and counterexamples -/

namespace AVC

/-- A small reachable-shaped state: one active election (id 1, window
[10, 3700]) with one active position (id 1, maxCandidates 5) and one approved
candidate (id 1) registered under (election 1, position 1); account 7 is an
authorized voter; owner is 100. -/
def wState : State where
  owner := 100
  currentElectionId := 1
  contractPaused := false
  elections := upd (fun _ => Election.zero) 1 ⟨1, "E", "", 10, 3700, 1, true, 0, 1, 100⟩
  positions := upd (fun _ => Position.zero) 1 ⟨1, "P", "", 5, 1, true, 1⟩
  candidates := upd (fun _ => Candidate.zero) 1 ⟨1, "A", "M1", 1, "", 0, true, 0, true⟩
  voters := upd (fun _ => Voter.zero) 7 ⟨7, "M7", true, 0, fun _ => false, fun _ => 0, 0⟩
  positionCandidates := upd (fun _ _ => []) 1 (upd (fun _ => []) 1 [1])
  electionPositions := upd (fun _ => []) 1 [1]
  electionCount := 1
  positionCount := 1
  candidateCount := 1
  voterCount := 1
  authorizedAdmins := fun _ => false
  failedVoteAttempts := fun _ => 0
  voteLockoutUntil := fun _ => 0

/-- A call history in which position 1 is shared by elections 1 and 2 (each
with window [10, 3700] and one candidate: candidate 1 under election 1,
candidate 2 under election 2), voter 7 is authorized and votes in election 1
for position 1 at time 10. -/
def ceTrace : List Op :=
  [.createPosition 100 0 "P" "" 5 1,
   .createElection 100 0 "E1" "" 10 3700 1 [1],
   .addCandidate 100 0 1 1 "A" "M1" "",
   .createElection 100 0 "E2" "" 10 3700 1 [1],
   .addCandidate 100 0 2 1 "B" "M2" "",
   .authorizeVoter 100 0 7 "M7",
   .vote 7 10 1 1 1]

/-- The state reached by `ceTrace` from a fresh contract owned by 100. -/
def ceState : State := run (initState 100) ceTrace

/-- A call history in which position 1 has `maxCandidates = 1` and is shared
by elections 1 and 2, with one candidate added under each election. -/
def ce7Trace : List Op :=
  [.createPosition 100 0 "P" "" 1 1,
   .createElection 100 0 "E1" "" 10 3700 1 [1],
   .addCandidate 100 0 1 1 "A" "M1" "",
   .createElection 100 0 "E2" "" 10 3700 1 [1],
   .addCandidate 100 0 2 1 "B" "M2" ""]

/-- The state reached by `ce7Trace` from a fresh contract owned by 100. -/
def ce7State : State := run (initState 100) ce7Trace

/-- Candidate lists are index-bounded and per-(election, position) lists never
exceed the position's `maxCandidates`. -/
def boundedPC (s : State) : Prop :=
  (∀ e p c, c ∈ s.positionCandidates e p → p ≤ s.positionCount) ∧
  (∀ e p, (s.positionCandidates e p).length ≤ (s.positions p).maxCandidates)

/-- The bookkeeping invariant behind the tally equalities: registered
candidate ids are in range, each candidate id is registered under exactly one
(election, position) pair and appears there once, unassigned candidate slots
hold a zero vote counter, and every election's `totalVotes` equals the sum of
its registered candidates' vote counters. -/
def tallyInv (s : State) : Prop :=
  (∀ e p c, c ∈ s.positionCandidates e p →
    1 ≤ p ∧ p ≤ s.positionCount ∧ c ≤ s.candidateCount) ∧
  (∀ e p e' p' c, c ∈ s.positionCandidates e p → c ∈ s.positionCandidates e' p' →
    e = e' ∧ p = p') ∧
  (∀ e p, (s.positionCandidates e p).Nodup) ∧
  (∀ c, s.candidateCount < c → (s.candidates c).voteCount = 0) ∧
  (∀ e, electionTally s e = (s.elections e).totalVotes)

end AVC

/-! ## Basic lemmas -/

theorem upd_same {α : Type} (f : Nat → α) (k : Nat) (v : α) : upd f k v k = v := by
  simp [upd]

theorem upd_other {α : Type} (f : Nat → α) (k : Nat) (v : α) {j : Nat} (h : j ≠ k) :
    upd f k v j = f j := by
  simp [upd, h]

theorem require_bind_ok {α : Type} {P : Prop} [Decidable P] {msg : String}
    {f : Unit → Except String α} {a : α} :
    (require P msg >>= f) = .ok a ↔ P ∧ f () = .ok a := by
  unfold require
  split_ifs with h <;> simp [h, Bind.bind, Except.bind]

theorem pure_ok {α : Type} {x a : α} :
    (pure x : Except String α) = .ok a ↔ x = a := by
  simp [pure, Except.pure]

/-! ## Success characterizations of the AVC operations -/

namespace AVC

theorem createElection_ok_iff {s : State} {caller now : Nat} {title descr : String}
    {startTime endTime electionType : Nat} {positionIds : List Nat} {s' : State} :
    createElection s caller now title descr startTime endTime electionType positionIds
        = .ok s' ↔
      (isAuthorizedAdminOrOwner s caller ∧ ¬ s.contractPaused ∧
        endTime > startTime ∧ startTime > now ∧
        endTime - startTime ≥ MIN_ELECTION_DURATION ∧
        endTime - startTime ≤ MAX_ELECTION_DURATION ∧
        positionIds.length > 0 ∧ positionIds.length ≤ MAX_POSITIONS_PER_ELECTION ∧
        (electionType ≥ 1 ∧ electionType ≤ 3) ∧
        (∀ p ∈ positionIds, (s.positions p).isActive)) ∧
      createElectionEffect s caller title descr startTime endTime electionType positionIds = s' := by
  unfold createElection
  simp only [require_bind_ok, pure_ok, and_assoc]

theorem createPosition_ok_iff {s : State} {caller now : Nat} {title descr : String}
    {maxCandidates maxVotesPerVoter : Nat} {s' : State} :
    createPosition s caller now title descr maxCandidates maxVotesPerVoter = .ok s' ↔
      (isAuthorizedAdminOrOwner s caller ∧ title.length > 0 ∧
        (maxCandidates > 0 ∧ maxCandidates ≤ MAX_CANDIDATES_PER_POSITION) ∧
        maxVotesPerVoter > 0) ∧
      createPositionEffect s title descr maxCandidates maxVotesPerVoter = s' := by
  unfold createPosition
  simp only [require_bind_ok, pure_ok, and_assoc]

theorem addCandidate_ok_iff {s : State} {caller now eId pId : Nat}
    {name matricNumber bio : String} {s' : State} :
    addCandidate s caller now eId pId name matricNumber bio = .ok s' ↔
      (isAuthorizedAdminOrOwner s caller ∧
        (eId ≤ s.electionCount ∧ eId > 0) ∧ (pId ≤ s.positionCount ∧ pId > 0) ∧
        (s.positions pId).isActive ∧ name.length > 0 ∧ matricNumber.length > 0 ∧
        (s.elections eId).isActive ∧ now < (s.elections eId).startTime ∧
        pId ∈ s.electionPositions eId ∧
        (s.positionCandidates eId pId).length < (s.positions pId).maxCandidates) ∧
      addCandidateEffect s now eId pId name matricNumber bio = s' := by
  unfold addCandidate
  simp only [require_bind_ok, pure_ok, and_assoc]

theorem authorizeVoter_ok_iff {s : State} {caller now voterAddress : Nat}
    {matricNumber : String} {s' : State} :
    authorizeVoter s caller now voterAddress matricNumber = .ok s' ↔
      (isAuthorizedAdminOrOwner s caller ∧ voterAddress ≠ 0 ∧ matricNumber.length > 0 ∧
        ¬ (s.voters voterAddress).isAuthorized) ∧
      authorizeVoterEffect s now voterAddress matricNumber = s' := by
  unfold authorizeVoter
  simp only [require_bind_ok, pure_ok, and_assoc]

theorem vote_ok_iff {s : State} {caller now eId pId cId : Nat} {s' : State} :
    vote s caller now eId pId cId = .ok s' ↔
      votePre s caller now eId pId cId ∧ voteEffect s caller eId pId cId = s' := by
  unfold vote votePre
  simp only [require_bind_ok, pure_ok, and_assoc]

theorem endElection_ok_iff {s : State} {caller now eId : Nat} {s' : State} :
    endElection s caller now eId = .ok s' ↔
      (isAuthorizedAdminOrOwner s caller ∧ (eId ≤ s.electionCount ∧ eId > 0) ∧
        (s.elections eId).isActive) ∧
      { s with elections := upd s.elections eId ({ s.elections eId with isActive := false }) }
        = s' := by
  unfold endElection
  simp only [require_bind_ok, pure_ok, and_assoc]

theorem addAuthorizedAdmin_ok_iff {s : State} {caller now admin : Nat} {s' : State} :
    addAuthorizedAdmin s caller now admin = .ok s' ↔
      (caller = s.owner ∧ admin ≠ 0 ∧ ¬ s.authorizedAdmins admin) ∧
      { s with authorizedAdmins := upd s.authorizedAdmins admin true } = s' := by
  unfold addAuthorizedAdmin
  simp only [require_bind_ok, pure_ok, and_assoc]

theorem removeAuthorizedAdmin_ok_iff {s : State} {caller now admin : Nat} {s' : State} :
    removeAuthorizedAdmin s caller now admin = .ok s' ↔
      (caller = s.owner ∧ s.authorizedAdmins admin) ∧
      { s with authorizedAdmins := upd s.authorizedAdmins admin false } = s' := by
  unfold removeAuthorizedAdmin
  simp only [require_bind_ok, pure_ok, and_assoc]

theorem togglePause_ok_iff {s : State} {caller now : Nat} {s' : State} :
    togglePause s caller now = .ok s' ↔
      caller = s.owner ∧ { s with contractPaused := ¬ s.contractPaused } = s' := by
  unfold togglePause
  simp only [require_bind_ok, pure_ok, and_assoc]

theorem transferOwnership_ok_iff {s : State} {caller now newOwner : Nat} {s' : State} :
    transferOwnership s caller now newOwner = .ok s' ↔
      (caller = s.owner ∧ newOwner ≠ 0 ∧ newOwner ≠ s.owner) ∧
      { s with owner := newOwner } = s' := by
  unfold transferOwnership
  simp only [require_bind_ok, pure_ok, and_assoc]

theorem emergencyPause_ok_iff {s : State} {caller now : Nat} {s' : State} :
    emergencyPause s caller now = .ok s' ↔
      caller = s.owner ∧ { s with contractPaused := true } = s' := by
  unfold emergencyPause
  simp only [require_bind_ok, pure_ok, and_assoc]

theorem step_of_ok {s s' : State} {op : Op} (h : runOp s op = .ok s') : step s op = s' := by
  unfold step
  rw [h]

theorem step_of_err {s : State} {op : Op} {msg : String}
    (h : runOp s op = .error msg) : step s op = s := by
  unfold step
  rw [h]

end AVC

/-! ## Success characterizations of the MSV operations -/

namespace MSV

theorem initState_ok_iff {adminList : List Nat} {required : Nat} {s : State} :
    initState adminList required = .ok s ↔
      (validRequirement adminList.length required ∧ adminList.length > 0 ∧
        (∀ a ∈ adminList, a ≠ 0) ∧ adminList.Nodup) ∧
      ({ admins := adminList, requiredConfirmations := required, proposalCount := 0,
         transactionCount := 0, transactions := fun _ => Transaction.zero,
         isConfirmed := fun _ _ => false, isAdmin := fun a => adminList.contains a,
         proposals := fun _ => Proposal.zero, votes := fun _ _ => 0,
         hasVoted := fun _ _ => false } : State) = s := by
  unfold initState
  simp only [require_bind_ok, pure_ok, and_assoc]

theorem executeTransaction_ok_iff {s : State} {tid : Nat} {extOk : Bool} {s' : State} :
    executeTransaction s tid extOk = .ok s' ↔
      (tid < s.transactionCount ∧ ¬ (s.transactions tid).executed ∧
        isTransactionConfirmed s tid ∧ extOk) ∧
      executeEffect s tid = s' := by
  unfold executeTransaction
  simp only [require_bind_ok, pure_ok, and_assoc]

theorem confirmTransaction_ok_iff {s : State} {caller tid : Nat} {extOk : Bool} {s' : State} :
    confirmTransaction s caller tid extOk = .ok s' ↔
      s.isAdmin caller ∧ tid < s.transactionCount ∧ ¬ s.isConfirmed tid caller ∧
      ((isTransactionConfirmed (confirmEffect s caller tid) tid ∧
          executeTransaction (confirmEffect s caller tid) tid extOk = .ok s') ∨
        (¬ isTransactionConfirmed (confirmEffect s caller tid) tid ∧
          confirmEffect s caller tid = s')) := by
  unfold confirmTransaction
  simp only [require_bind_ok, and_assoc]
  by_cases h : (isTransactionConfirmed (confirmEffect s caller tid) tid : Prop) <;>
    simp [h, pure_ok]

theorem submitTransaction_ok_iff {s : State} {caller now toAddr value : Nat}
    {dataStr descr : String} {extOk : Bool} {s' : State} :
    submitTransaction s caller now toAddr value dataStr descr extOk = .ok s' ↔
      s.isAdmin caller ∧
      confirmTransaction (submitEffect s now toAddr value dataStr descr) caller
        s.transactionCount extOk = .ok s' := by
  unfold submitTransaction
  simp only [require_bind_ok, and_assoc]

theorem revokeConfirmation_ok_iff {s : State} {caller tid : Nat} {s' : State} :
    revokeConfirmation s caller tid = .ok s' ↔
      (s.isAdmin caller ∧ tid < s.transactionCount ∧ ¬ (s.transactions tid).executed ∧
        s.isConfirmed tid caller ∧ (s.transactions tid).confirmationCount ≠ 0) ∧
      revokeEffect s caller tid = s' := by
  unfold revokeConfirmation
  simp only [require_bind_ok, pure_ok, and_assoc]

theorem createProposal_ok_iff {s : State} {caller now : Nat} {title descr : String}
    {votingPeriod : Nat} {ptype : ProposalType} {payload : ExecData} {s' : State} :
    createProposal s caller now title descr votingPeriod ptype payload = .ok s' ↔
      (s.isAdmin caller ∧ title.length > 0 ∧
        (votingPeriod ≥ MIN_VOTING_PERIOD ∧ votingPeriod ≤ MAX_VOTING_PERIOD)) ∧
      { s with
        proposals := upd s.proposals s.proposalCount
          ⟨s.proposalCount, title, descr, caller, now, now + votingPeriod, 0, 0, 0,
            false, ptype, payload⟩
        proposalCount := s.proposalCount + 1 } = s' := by
  unfold createProposal
  simp only [require_bind_ok, pure_ok, and_assoc]

theorem voteOnProposal_ok_iff {s : State} {caller now pid voteVal : Nat} {s' : State} :
    voteOnProposal s caller now pid voteVal = .ok s' ↔
      (s.isAdmin caller ∧ pid < s.proposalCount ∧ (voteVal ≥ 1 ∧ voteVal ≤ 3) ∧
        ¬ s.hasVoted pid caller ∧ now ≤ (s.proposals pid).votingDeadline) ∧
      { s with
        hasVoted := upd s.hasVoted pid (upd (s.hasVoted pid) caller true)
        votes := upd s.votes pid (upd (s.votes pid) caller voteVal)
        proposals := upd s.proposals pid
          (if voteVal = 1 then
            { s.proposals pid with forVotes := (s.proposals pid).forVotes + 1 }
          else if voteVal = 2 then
            { s.proposals pid with againstVotes := (s.proposals pid).againstVotes + 1 }
          else
            { s.proposals pid with abstainVotes := (s.proposals pid).abstainVotes + 1 }) }
        = s' := by
  unfold voteOnProposal
  simp only [require_bind_ok, pure_ok, and_assoc]

theorem changeRequirementSelf_ok_iff {s : State} {required : Nat} {s' : State} :
    changeRequirementSelf s required = .ok s' ↔
      validRequirement s.admins.length required ∧
      { s with requiredConfirmations := required } = s' := by
  unfold changeRequirementSelf
  simp only [require_bind_ok, pure_ok, and_assoc]

theorem addAdminInternal_ok_iff {s : State} {admin : Nat} {s' : State} :
    addAdminInternal s admin = .ok s' ↔
      (¬ s.isAdmin admin ∧ validRequirement (s.admins.length + 1) s.requiredConfirmations ∧
        admin ≠ 0 ∧ s.admins.length < MAX_ADMINS) ∧
      { s with isAdmin := upd s.isAdmin admin true, admins := s.admins ++ [admin] } = s' := by
  unfold addAdminInternal
  simp only [require_bind_ok, pure_ok, and_assoc]

theorem removeAdminInternal_ok_iff {s : State} {admin : Nat} {s' : State} :
    removeAdminInternal s admin = .ok s' ↔
      (s.isAdmin admin ∧ s.admins.length > 1 ∧
        s.admins.length - 1 ≥ s.requiredConfirmations) ∧
      { s with isAdmin := upd s.isAdmin admin false, admins := swapRemove s.admins admin }
        = s' := by
  unfold removeAdminInternal
  simp only [require_bind_ok, pure_ok, and_assoc]

theorem executeProposal_ok_iff {s : State} {caller now pid : Nat} {s' : State} :
    executeProposal s caller now pid = .ok s' ↔
      s.isAdmin caller ∧ pid < s.proposalCount ∧
      now > (s.proposals pid).votingDeadline ∧ ¬ (s.proposals pid).executed ∧
      (s.proposals pid).forVotes > (s.proposals pid).againstVotes ∧
      (s.proposals pid).forVotes ≥ s.requiredConfirmations ∧
      executeDispatch
        { s with proposals := upd s.proposals pid ({ s.proposals pid with executed := true }) }
        (s.proposals pid) = .ok s' := by
  unfold executeProposal
  simp only [require_bind_ok, and_assoc]

theorem stepM_of_ok {s s' : State} {op : Op} (h : runOp s op = .ok s') : step s op = s' := by
  unfold step
  rw [h]

theorem stepM_of_err {s : State} {op : Op} {msg : String}
    (h : runOp s op = .error msg) : step s op = s := by
  unfold step
  rw [h]

end MSV

/-! ## Generic Except lemmas -/

theorem isErr_true_iff {α : Type} {r : Except String α} :
    isErr r = true ↔ ∀ x, r ≠ .ok x := by
  cases r <;> simp [isErr]

theorem exists_error_of_isErr {α : Type} {r : Except String α}
    (h : isErr r = true) : ∃ m, r = .error m := by
  cases r with
  | ok x => simp [isErr] at h
  | error m => exact ⟨m, rfl⟩

/-! ## AVC frame and monotonicity lemmas -/

namespace AVC

theorem step_eq_self_of_isErr {s : State} {op : Op}
    (h : isErr (runOp s op) = true) : step s op = s := by
  cases hr : runOp s op with
  | ok s' => rw [hr] at h; simp [isErr] at h
  | error m => exact step_of_err hr

/-- No operation ever clears a voter's authorization flag. -/
theorem step_isAuthorized_mono (s : State) (op : Op) (a : Nat)
    (h : (s.voters a).isAuthorized) : ((step s op).voters a).isAuthorized := by
  cases hr : runOp s op with
  | error m => rw [step_of_err hr]; exact h
  | ok s' =>
    rw [step_of_ok hr]
    cases op with
    | createElection c n t d st en ty ps =>
      simp only [runOp] at hr
      rw [createElection_ok_iff] at hr
      obtain ⟨-, rfl⟩ := hr
      simpa [createElectionEffect] using h
    | createPosition c n t d mc mv =>
      simp only [runOp] at hr
      rw [createPosition_ok_iff] at hr
      obtain ⟨-, rfl⟩ := hr
      simpa [createPositionEffect] using h
    | addCandidate c n e p nm m b =>
      simp only [runOp] at hr
      rw [addCandidate_ok_iff] at hr
      obtain ⟨-, rfl⟩ := hr
      simpa [addCandidateEffect] using h
    | authorizeVoter c n va m =>
      simp only [runOp] at hr
      rw [authorizeVoter_ok_iff] at hr
      obtain ⟨-, rfl⟩ := hr
      by_cases hv : a = va <;>
        simp_all [authorizeVoterEffect, upd]
    | vote c n e p cd =>
      simp only [runOp] at hr
      rw [vote_ok_iff] at hr
      obtain ⟨-, rfl⟩ := hr
      by_cases hv : a = c <;>
        simp_all [voteEffect, upd]
    | endElection c n e =>
      simp only [runOp, endElection_ok_iff] at hr
      obtain ⟨-, rfl⟩ := hr
      simpa using h
    | addAuthorizedAdmin c n ad =>
      simp only [runOp, addAuthorizedAdmin_ok_iff] at hr
      obtain ⟨-, rfl⟩ := hr
      simpa using h
    | removeAuthorizedAdmin c n ad =>
      simp only [runOp, removeAuthorizedAdmin_ok_iff] at hr
      obtain ⟨-, rfl⟩ := hr
      simpa using h
    | togglePause c n =>
      simp only [runOp, togglePause_ok_iff] at hr
      obtain ⟨-, rfl⟩ := hr
      simpa using h
    | transferOwnership c n o =>
      simp only [runOp, transferOwnership_ok_iff] at hr
      obtain ⟨-, rfl⟩ := hr
      simpa using h
    | emergencyPause c n =>
      simp only [runOp, emergencyPause_ok_iff] at hr
      obtain ⟨-, rfl⟩ := hr
      simpa using h

theorem run_isAuthorized_mono (tr : List Op) (s : State) (a : Nat)
    (h : (s.voters a).isAuthorized) : ((run s tr).voters a).isAuthorized := by
  induction tr generalizing s with
  | nil => exact h
  | cons op rest ih => exact ih (step s op) (step_isAuthorized_mono s op a h)

end AVC

/-! ## Claim theorems -/

/-- Claim C3: once `authorizeVoter` has succeeded for an account, the account's
authorization flag is set and timestamped with the call time, and after any
further sequence of contract calls every later `authorizeVoter` call for the
same account fails and leaves the entire state (in particular the flag, the
timestamp and the voter count) unchanged; `authorizeVoter` also always fails
for the zero identity and for an empty registration number. -/
theorem C3_authorize_voter_once :
    (∀ (s : AVC.State) (caller now a : Nat) (m : String) (s' : AVC.State),
      AVC.authorizeVoter s caller now a m = .ok s' →
        ((s'.voters a).isAuthorized = true ∧ (s'.voters a).authorizedAt = now) ∧
        ∀ (tr : List AVC.Op) (c2 n2 : Nat) (m2 : String),
          isErr (AVC.authorizeVoter (AVC.run s' tr) c2 n2 a m2) = true ∧
          AVC.step (AVC.run s' tr) (.authorizeVoter c2 n2 a m2) = AVC.run s' tr) ∧
    (∀ (s : AVC.State) (caller now : Nat) (m : String),
      isErr (AVC.authorizeVoter s caller now 0 m) = true) ∧
    (∀ (s : AVC.State) (caller now a : Nat),
      isErr (AVC.authorizeVoter s caller now a "") = true) := by
  refine ⟨?_, ?_, ?_⟩
  · intro s caller now a m s' h
    rw [AVC.authorizeVoter_ok_iff] at h
    obtain ⟨⟨hadm, hnz, hm, hnotauth⟩, rfl⟩ := h
    have hflag : ((AVC.authorizeVoterEffect s now a m).voters a).isAuthorized := by
      simp [AVC.authorizeVoterEffect, upd]
    refine ⟨⟨by simpa using hflag, by simp [AVC.authorizeVoterEffect, upd]⟩, ?_⟩
    intro tr c2 n2 m2
    have hauth : ((AVC.run (AVC.authorizeVoterEffect s now a m) tr).voters a).isAuthorized :=
      AVC.run_isAuthorized_mono tr _ a hflag
    have herr : isErr (AVC.authorizeVoter
        (AVC.run (AVC.authorizeVoterEffect s now a m) tr) c2 n2 a m2) = true := by
      rw [isErr_true_iff]
      intro x hx
      rw [AVC.authorizeVoter_ok_iff] at hx
      exact hx.1.2.2.2 hauth
    refine ⟨herr, ?_⟩
    apply AVC.step_eq_self_of_isErr
    simpa [AVC.runOp] using herr
  · intro s caller now m
    rw [isErr_true_iff]
    intro x hx
    rw [AVC.authorizeVoter_ok_iff] at hx
    exact hx.1.2.1 rfl
  · intro s caller now a
    rw [isErr_true_iff]
    intro x hx
    rw [AVC.authorizeVoter_ok_iff] at hx
    simpa using hx.1.2.2.1

/-- Witness for C3: in a fresh contract the owner authorizes voter 7 at time 5;
the flag is set and timestamped, and after a later `togglePause` call a second
authorization attempt for account 7 fails. -/
theorem C3_authorize_voter_once_witness :
    AVC.authorizeVoter (AVC.initState 100) 100 5 7 "M7"
        = .ok (AVC.authorizeVoterEffect (AVC.initState 100) 5 7 "M7") ∧
    (((AVC.authorizeVoterEffect (AVC.initState 100) 5 7 "M7").voters 7).isAuthorized = true ∧
      ((AVC.authorizeVoterEffect (AVC.initState 100) 5 7 "M7").voters 7).authorizedAt = 5) ∧
    isErr (AVC.authorizeVoter
      (AVC.run (AVC.authorizeVoterEffect (AVC.initState 100) 5 7 "M7")
        [AVC.Op.togglePause 100 6]) 100 8 7 "M7") = true := by
  have h0 : AVC.authorizeVoter (AVC.initState 100) 100 5 7 "M7"
      = .ok (AVC.authorizeVoterEffect (AVC.initState 100) 5 7 "M7") := rfl
  obtain ⟨hset, hlater⟩ := C3_authorize_voter_once.1 _ 100 5 7 "M7" _ h0
  exact ⟨h0, hset, (hlater [AVC.Op.togglePause 100 6] 100 8 "M7").1⟩

theorem require_bind_err_iff {α : Type} {P : Prop} [Decidable P] {msg : String}
    {f : Unit → Except String α} {m' : String} :
    (require P msg >>= f) = .error m' ↔ ((¬ P ∧ msg = m') ∨ (P ∧ f () = .error m')) := by
  unfold require
  split_ifs with h <;> simp [h, Bind.bind, Except.bind]

theorem pure_ne_error {α : Type} {x : α} {m : String} :
    ((pure x : Except String α) = .error m) ↔ False := by
  simp [pure, Except.pure]

namespace AVC

/-- Admin-set mutations never change the owner. -/
theorem step_owner_of_adminSetOp {s : State} {op : Op}
    (h : isAdminSetOp op = true) : (step s op).owner = s.owner := by
  cases hr : runOp s op with
  | error m => rw [step_of_err hr]
  | ok s' =>
    rw [step_of_ok hr]
    cases op with
    | addAuthorizedAdmin c n ad =>
      simp only [runOp, addAuthorizedAdmin_ok_iff] at hr
      obtain ⟨-, rfl⟩ := hr
      rfl
    | removeAuthorizedAdmin c n ad =>
      simp only [runOp, removeAuthorizedAdmin_ok_iff] at hr
      obtain ⟨-, rfl⟩ := hr
      rfl
    | createElection c n t d st en ty ps => simp [isAdminSetOp] at h
    | createPosition c n t d mc mv => simp [isAdminSetOp] at h
    | addCandidate c n e p nm m b => simp [isAdminSetOp] at h
    | authorizeVoter c n va m => simp [isAdminSetOp] at h
    | vote c n e p cd => simp [isAdminSetOp] at h
    | endElection c n e => simp [isAdminSetOp] at h
    | togglePause c n => simp [isAdminSetOp] at h
    | transferOwnership c n o => simp [isAdminSetOp] at h
    | emergencyPause c n => simp [isAdminSetOp] at h

theorem run_owner_of_adminSetOps (tr : List Op) (s : State)
    (h : ∀ op ∈ tr, isAdminSetOp op = true) : (run s tr).owner = s.owner := by
  induction tr generalizing s with
  | nil => rfl
  | cons op rest ih =>
    have h1 : (step s op).owner = s.owner :=
      step_owner_of_adminSetOp (h op (by simp))
    have h2 := ih (step s op) (fun o ho => h o (by simp [ho]))
    simpa [run, h1] using h2

end AVC

/-- Claim C9: the contract owner always passes the `onlyAuthorizedAdmin` gate,
even when absent from `authorizedAdmins`; none of the admin-gated operations
(`createElection`, `createPosition`, `addCandidate`, `authorizeVoter`,
`endElection`) can reject the owner with the admin-gate error; and no sequence
of `addAuthorizedAdmin`/`removeAuthorizedAdmin` calls changes who the owner is
or makes the owner fail the gate. -/
theorem C9_owner_admin_privileges :
    (∀ s : AVC.State, AVC.isAuthorizedAdminOrOwner s s.owner = true) ∧
    (∀ s : AVC.State, s.authorizedAdmins s.owner = false →
      AVC.isAuthorizedAdminOrOwner s s.owner = true) ∧
    (∀ (s : AVC.State) (now : Nat) (t d : String) (st en ty : Nat) (ps : List Nat),
      AVC.createElection s s.owner now t d st en ty ps
        ≠ .error "Only authorized admin can perform this action") ∧
    (∀ (s : AVC.State) (now : Nat) (t d : String) (mc mv : Nat),
      AVC.createPosition s s.owner now t d mc mv
        ≠ .error "Only authorized admin can perform this action") ∧
    (∀ (s : AVC.State) (now e p : Nat) (nm m b : String),
      AVC.addCandidate s s.owner now e p nm m b
        ≠ .error "Only authorized admin can perform this action") ∧
    (∀ (s : AVC.State) (now a : Nat) (m : String),
      AVC.authorizeVoter s s.owner now a m
        ≠ .error "Only authorized admin can perform this action") ∧
    (∀ (s : AVC.State) (now e : Nat),
      AVC.endElection s s.owner now e
        ≠ .error "Only authorized admin can perform this action") ∧
    (∀ (s : AVC.State) (tr : List AVC.Op), (∀ op ∈ tr, AVC.isAdminSetOp op = true) →
      (AVC.run s tr).owner = s.owner ∧
      AVC.isAuthorizedAdminOrOwner (AVC.run s tr) s.owner = true) := by
  have hcheck : ∀ s : AVC.State, AVC.isAuthorizedAdminOrOwner s s.owner = true := by
    intro s
    simp [AVC.isAuthorizedAdminOrOwner]
  refine ⟨hcheck, fun s _ => hcheck s, ?_, ?_, ?_, ?_, ?_, ?_⟩
  · intro s now t d st en ty ps h
    rw [AVC.createElection] at h
    simp only [require_bind_err_iff, pure_ne_error] at h
    rcases h with ⟨hna, -⟩ | ⟨-, h⟩
    · exact hna (by simp [AVC.isAuthorizedAdminOrOwner])
    · simp at h
  · intro s now t d mc mv h
    rw [AVC.createPosition] at h
    simp only [require_bind_err_iff, pure_ne_error] at h
    rcases h with ⟨hna, -⟩ | ⟨-, h⟩
    · exact hna (by simp [AVC.isAuthorizedAdminOrOwner])
    · simp at h
  · intro s now e p nm m b h
    rw [AVC.addCandidate] at h
    simp only [require_bind_err_iff, pure_ne_error] at h
    rcases h with ⟨hna, -⟩ | ⟨-, h⟩
    · exact hna (by simp [AVC.isAuthorizedAdminOrOwner])
    · simp at h
  · intro s now a m h
    rw [AVC.authorizeVoter] at h
    simp only [require_bind_err_iff, pure_ne_error] at h
    rcases h with ⟨hna, -⟩ | ⟨-, h⟩
    · exact hna (by simp [AVC.isAuthorizedAdminOrOwner])
    · simp at h
  · intro s now e h
    rw [AVC.endElection] at h
    simp only [require_bind_err_iff, pure_ne_error] at h
    rcases h with ⟨hna, -⟩ | ⟨-, h⟩
    · exact hna (by simp [AVC.isAuthorizedAdminOrOwner])
    · simp at h
  · intro s tr htr
    have hown := AVC.run_owner_of_adminSetOps tr s htr
    exact ⟨hown, by rw [← hown]; exact hcheck _⟩

/-- Witness for C9: in a fresh contract (owner 100, not in `authorizedAdmins`)
the gate accepts the owner, and after removing admin 100 itself the owner still
passes the gate. -/
theorem C9_owner_admin_privileges_witness :
    AVC.isAuthorizedAdminOrOwner (AVC.initState 100) 100 = true ∧
    AVC.isAuthorizedAdminOrOwner
      (AVC.run (AVC.initState 100) [AVC.Op.removeAuthorizedAdmin 100 1 100]) 100 = true := by
  have h := C9_owner_admin_privileges.2.2.2.2.2.2.2 (AVC.initState 100)
    [AVC.Op.removeAuthorizedAdmin 100 1 100] (by decide)
  exact ⟨C9_owner_admin_privileges.2.1 (AVC.initState 100) (by decide), h.2⟩

theorem require_bind_pos {α : Type} {P : Prop} [Decidable P] {msg : String}
    {f : Unit → Except String α} (h : P) : (require P msg >>= f) = f () := by
  unfold require
  simp [if_pos h, Bind.bind, Except.bind]

theorem require_bind_neg {α : Type} {P : Prop} [Decidable P] {msg : String}
    {f : Unit → Except String α} (h : ¬ P) : (require P msg >>= f) = .error msg := by
  unfold require
  simp [if_neg h, Bind.bind, Except.bind]

/-- Claim C1, amended: under the reachable-state well-formedness facts `WF`, a
`vote` call succeeds exactly when the spec's precondition list holds, with the
no-prior-vote condition read per position (the voter has not voted for this
position in ANY election) rather than per (election, position) pair; on
success it marks the position voted, records the chosen candidate, and
increments the candidate's counter, the election's total counter and the
voter's total-votes-cast counter, and resets the failed-attempt counter. -/
theorem C1_vote_characterization :
    ∀ (s : AVC.State) (caller now e p c : Nat),
      AVC.WF s →
      ((∃ s', AVC.vote s caller now e p c = .ok s') ↔ AVC.voteSpecPre s caller now e p c) ∧
      (∀ s', AVC.vote s caller now e p c = .ok s' →
        ((s'.voters caller).hasVotedForPosition p = true ∧
          (s'.voters caller).votedCandidateForPosition p = c ∧
          (s'.voters caller).totalVotesCast = (s.voters caller).totalVotesCast + 1) ∧
        (s'.candidates c).voteCount = (s.candidates c).voteCount + 1 ∧
        (s'.elections e).totalVotes = (s.elections e).totalVotes + 1 ∧
        s'.failedVoteAttempts caller = 0) := by
  intro s caller now e p c hWF
  constructor
  · constructor
    · rintro ⟨s', hs⟩
      rw [AVC.vote_ok_iff] at hs
      obtain ⟨⟨h1, h2, h3, h4, h5, h6, h7, h8, h9, h10, h11, h12, h13, h14⟩, -⟩ := hs
      exact ⟨h1, h2, h3, h4, h5, h6, h7, h9, hWF.2 e p c h14, h10, h12, h11, h14, h13⟩
    · rintro ⟨g1, g2, g3, g4, g5, g6, g7, g8, g9, g10, g11, g12, g13, g14⟩
      refine ⟨AVC.voteEffect s caller e p c, AVC.vote_ok_iff.mpr ⟨?_, rfl⟩⟩
      exact ⟨g1, g2, g3, g4, g5, g6, g7,
        ⟨(hWF.1 p g8).2, (hWF.1 p g8).1⟩, g8, g10, g12, g11, g14, g13⟩
  · intro s' h
    rw [AVC.vote_ok_iff] at h
    obtain ⟨-, rfl⟩ := h
    refine ⟨⟨?_, ?_, ?_⟩, ?_, ?_, ?_⟩ <;> simp [AVC.voteEffect, upd]

/-- Witness for C1: in the fixture state the well-formedness facts hold, the
spec preconditions hold for voter 7 voting candidate 1 for position 1 in
election 1 at time 10, and the call indeed succeeds. -/
theorem C1_vote_characterization_witness :
    AVC.WF AVC.wState ∧ AVC.voteSpecPre AVC.wState 7 10 1 1 1 ∧
    (∃ s', AVC.vote AVC.wState 7 10 1 1 1 = .ok s') := by
  have hWF : AVC.WF AVC.wState := by
    constructor
    · intro p hp
      by_cases h1 : p = 1
      · subst h1; exact ⟨le_refl 1, by decide⟩
      · exfalso
        simp [AVC.wState, upd, h1, AVC.Position.zero] at hp
    · intro e p c hc
      by_cases he : e = 1
      · by_cases hp : p = 1
        · subst he; subst hp; decide
        · exfalso
          simp [AVC.wState, upd, he, hp] at hc
      · exfalso
        simp [AVC.wState, upd, he] at hc
  have hpre : AVC.voteSpecPre AVC.wState 7 10 1 1 1 := by
    simp only [AVC.voteSpecPre]
    decide
  obtain ⟨hiff, -⟩ := C1_vote_characterization AVC.wState 7 10 1 1 1 hWF
  exact ⟨hWF, hpre, hiff.mpr hpre⟩

/-- Counterexample to C1 as stated: along `ceTrace` voter 7 has never voted in
election 2 (no recorded choice for the (election 2, position 1) pair), and
every other precondition on the spec's list holds for a vote for candidate 2
under (election 2, position 1) at time 11, yet the call reverts with
"Already voted for this position", because the code keys its already-voted
check on the position alone. -/
theorem C1_counterexample :
    ((AVC.ceState.voters 7).isAuthorized ∧ ¬ AVC.ceState.contractPaused ∧
      11 ≥ AVC.ceState.voteLockoutUntil 7 ∧
      (2 ≤ AVC.ceState.electionCount ∧ 2 > 0) ∧
      (AVC.ceState.elections 2).isActive ∧
      11 ≥ (AVC.ceState.elections 2).startTime ∧
      11 ≤ (AVC.ceState.elections 2).endTime ∧
      (AVC.ceState.positions 1).isActive ∧
      1 ∈ AVC.ceState.electionPositions 2 ∧
      (AVC.ceState.candidates 2).exists_ ∧
      (AVC.ceState.candidates 2).isApproved ∧
      (AVC.ceState.candidates 2).positionId = 1 ∧
      2 ∈ AVC.ceState.positionCandidates 2 1) ∧
    AVC.votedPairInTrace (AVC.initState 100) AVC.ceTrace 7 2 1 = false ∧
    AVC.vote AVC.ceState 7 11 2 1 2 = .error "Already voted for this position" := by
  refine ⟨by decide, by decide, by rfl⟩

/-- Counterexample to C2 as stated: in a fresh contract, account 7 calls
`vote` at time 5, outside election 1's [0, 0] window; the call fails, but
with the AuthorizationError "You are not authorized to vote" (§7 classifies
that message as an AuthorizationError, not a StateError), because the
authorization check runs before the time-window check. -/
theorem C2_counterexample :
    5 > ((AVC.initState 100).elections 1).endTime ∧
    AVC.vote (AVC.initState 100) 7 5 1 1 1 = .error "You are not authorized to vote" ∧
    AVC.isStateErrorMsg "You are not authorized to vote" = false := by
  refine ⟨by decide, by rfl, by decide⟩

/-- Claim C2, amended: a `vote` call at a time outside the target election's
[start, end] window always fails and leaves the state bit-for-bit unchanged;
moreover, whenever the checks that precede the time-window check pass (caller
authorized, not paused, not locked out, election exists and active), the error
is one of the time-window StateErrors "Election has not started yet" /
"Election has ended". -/
theorem C2_reject_outside_window :
    ∀ (s : AVC.State) (caller now e p c : Nat),
      (now < (s.elections e).startTime ∨ now > (s.elections e).endTime) →
      (∃ m, AVC.vote s caller now e p c = .error m) ∧
      AVC.step s (.vote caller now e p c) = s ∧
      (((s.voters caller).isAuthorized ∧ ¬ s.contractPaused ∧
          now ≥ s.voteLockoutUntil caller ∧ (e ≤ s.electionCount ∧ e > 0) ∧
          (s.elections e).isActive) →
        AVC.vote s caller now e p c = .error "Election has not started yet" ∨
        AVC.vote s caller now e p c = .error "Election has ended") := by
  intro s caller now e p c hw
  have herr : isErr (AVC.vote s caller now e p c) = true := by
    rw [isErr_true_iff]
    intro x hx
    rw [AVC.vote_ok_iff] at hx
    obtain ⟨⟨-, -, -, -, -, h6, h7, -⟩, -⟩ := hx
    omega
  refine ⟨exists_error_of_isErr herr, ?_, ?_⟩
  · apply AVC.step_eq_self_of_isErr
    simpa [AVC.runOp] using herr
  · rintro ⟨h1, h2, h3, h4, h5⟩
    rw [AVC.vote, require_bind_pos h1, require_bind_pos h2, require_bind_pos h3,
      require_bind_pos h4, require_bind_pos h5]
    by_cases hst : now ≥ (s.elections e).startTime
    · right
      rw [require_bind_pos hst, require_bind_neg (by omega)]
    · left
      rw [require_bind_neg hst]

/-- Witness for C2: in the fixture state voter 7 is authorized and election 1
is active with window [10, 3700]; a vote at time 5 fails with the StateError
"Election has not started yet" and the state is unchanged. -/
theorem C2_reject_outside_window_witness :
    (5 < (AVC.wState.elections 1).startTime ∨ 5 > (AVC.wState.elections 1).endTime) ∧
    AVC.step AVC.wState (.vote 7 5 1 1 1) = AVC.wState ∧
    (AVC.vote AVC.wState 7 5 1 1 1 = .error "Election has not started yet" ∨
      AVC.vote AVC.wState 7 5 1 1 1 = .error "Election has ended") := by
  have h := C2_reject_outside_window AVC.wState 7 5 1 1 1 (Or.inl (by decide))
  exact ⟨Or.inl (by decide), h.2.1, h.2.2 (by decide)⟩

namespace AVC

theorem step_boundedPC {s : State} {op : Op} (h : boundedPC s) : boundedPC (step s op) := by
  obtain ⟨hb, hl⟩ := h
  cases hr : runOp s op with
  | error m => rw [step_of_err hr]; exact ⟨hb, hl⟩
  | ok s' =>
    rw [step_of_ok hr]
    cases op with
    | createElection c n t d st en ty ps =>
      simp only [runOp, createElection_ok_iff] at hr
      obtain ⟨-, rfl⟩ := hr
      exact ⟨by simpa [createElectionEffect] using hb,
        by simpa [createElectionEffect] using hl⟩
    | createPosition c n t d mc mv =>
      simp only [runOp, createPosition_ok_iff] at hr
      obtain ⟨⟨-, -, ⟨hmc, -⟩, -⟩, rfl⟩ := hr
      constructor
      · intro e p cd hc
        simp only [createPositionEffect] at hc ⊢
        exact le_trans (hb e p cd hc) (Nat.le_succ _)
      · intro e p
        simp only [createPositionEffect]
        by_cases hp : p = s.positionCount + 1
        · rw [hp]
          have hempty : s.positionCandidates e (s.positionCount + 1) = [] := by
            cases hpc : s.positionCandidates e (s.positionCount + 1) with
            | nil => rfl
            | cons x xs =>
              exfalso
              have hx := hb e (s.positionCount + 1) x (by rw [hpc]; simp)
              omega
          simp [upd, hempty]
        · simp only [upd, if_neg hp]
          exact hl e p
    | addCandidate c n e0 p0 nm m b =>
      simp only [runOp, addCandidate_ok_iff] at hr
      obtain ⟨⟨-, -, hp, -, -, -, -, -, -, hlen⟩, rfl⟩ := hr
      constructor
      · intro e p cd hc
        simp only [addCandidateEffect] at hc ⊢
        by_cases he' : e = e0
        · by_cases hp' : p = p0
          · simp [upd, he', hp'] at hc
            rw [hp']
            rcases hc with hcc | hcc
            · exact hb e0 p0 cd hcc
            · exact hp.1
          · simp [upd, he', hp'] at hc
            exact hb e0 p cd hc
        · simp [upd, he'] at hc
          exact hb e p cd hc
      · intro e p
        simp only [addCandidateEffect]
        by_cases hp' : p = p0
        · by_cases he' : e = e0
          · simp [upd, he', hp']
            omega
          · simp [upd, he', hp']
            exact hl e p0
        · by_cases he' : e = e0
          · simp [upd, he', hp']
            exact hl e0 p
          · simp [upd, he', hp']
            exact hl e p
    | authorizeVoter c n va m =>
      simp only [runOp, authorizeVoter_ok_iff] at hr
      obtain ⟨-, rfl⟩ := hr
      exact ⟨by simpa [authorizeVoterEffect] using hb,
        by simpa [authorizeVoterEffect] using hl⟩
    | vote c n e p cd =>
      simp only [runOp, vote_ok_iff] at hr
      obtain ⟨-, rfl⟩ := hr
      exact ⟨by simpa [voteEffect] using hb, by simpa [voteEffect] using hl⟩
    | endElection c n e =>
      simp only [runOp, endElection_ok_iff] at hr
      obtain ⟨-, rfl⟩ := hr
      exact ⟨by simpa using hb, by simpa using hl⟩
    | addAuthorizedAdmin c n ad =>
      simp only [runOp, addAuthorizedAdmin_ok_iff] at hr
      obtain ⟨-, rfl⟩ := hr
      exact ⟨by simpa using hb, by simpa using hl⟩
    | removeAuthorizedAdmin c n ad =>
      simp only [runOp, removeAuthorizedAdmin_ok_iff] at hr
      obtain ⟨-, rfl⟩ := hr
      exact ⟨by simpa using hb, by simpa using hl⟩
    | togglePause c n =>
      simp only [runOp, togglePause_ok_iff] at hr
      obtain ⟨-, rfl⟩ := hr
      exact ⟨by simpa using hb, by simpa using hl⟩
    | transferOwnership c n o =>
      simp only [runOp, transferOwnership_ok_iff] at hr
      obtain ⟨-, rfl⟩ := hr
      exact ⟨by simpa using hb, by simpa using hl⟩
    | emergencyPause c n =>
      simp only [runOp, emergencyPause_ok_iff] at hr
      obtain ⟨-, rfl⟩ := hr
      exact ⟨by simpa using hb, by simpa using hl⟩

end AVC

namespace AVC

theorem run_boundedPC (tr : List Op) (s : State) (h : boundedPC s) :
    boundedPC (run s tr) := by
  induction tr generalizing s with
  | nil => exact h
  | cons op rest ih => exact ih (step s op) (step_boundedPC h)

theorem initState_boundedPC (deployer : Nat) : boundedPC (initState deployer) := by
  constructor
  · intro e p c hc
    simp [initState] at hc
  · intro e p
    simp [initState, Position.zero]

end AVC

/-- Claim C7, amended: for every (election, position) pair, the number of
candidates registered under that pair never exceeds the position's
`maxCandidates`, after any sequence of operations from a fresh contract; the
position's cumulative `candidateCount` field (reported as `totalCandidates` by
`getPositionInfo`) counts candidates across ALL elections sharing the position
and can exceed `maxCandidates` (see the counterexample). -/
theorem C7_per_election_candidate_bound :
    ∀ (deployer : Nat) (tr : List AVC.Op) (e p : Nat),
      ((AVC.run (AVC.initState deployer) tr).positionCandidates e p).length
        ≤ ((AVC.run (AVC.initState deployer) tr).positions p).maxCandidates :=
  fun deployer tr e p =>
    (AVC.run_boundedPC tr (AVC.initState deployer) (AVC.initState_boundedPC deployer)).2 e p

/-- Counterexample to C7 as stated: after `ce7Trace` (position 1 with
`maxCandidates = 1`, shared by elections 1 and 2, one candidate added under
each), the position's `candidateCount` is 2 > 1 = `maxCandidates`, and
`getPositionInfo` reports `totalCandidates = 2`. -/
theorem C7_counterexample :
    (AVC.ce7State.positions 1).maxCandidates = 1 ∧
    (AVC.ce7State.positions 1).candidateCount = 2 ∧
    AVC.getPositionInfo AVC.ce7State 1 = .ok ("P", "", 1, 1, true, 2) ∧
    ¬ (AVC.ce7State.positions 1).candidateCount ≤ (AVC.ce7State.positions 1).maxCandidates := by
  refine ⟨by decide, by decide, by rfl, by decide⟩

/-- Claim C8, amended: no public call ever increases an account's
failed-attempt counter (a failed `vote` reverts, and the public `vote` path
never invokes `_handleFailedVote`, so the counter can only be reset to zero by
a successful vote); the internal helper `_handleFailedVote` — dead code — does
increment the counter and, once it reaches `MAX_FAILED_ATTEMPTS`, starts a
`VOTE_LOCKOUT_PERIOD` lockout window; and while `now < voteLockoutUntil`, an
authorized, non-paused `vote` call is rejected with the lockout error. -/
theorem C8_lockout_behavior :
    (∀ (s : AVC.State) (op : AVC.Op) (a : Nat),
      (AVC.step s op).failedVoteAttempts a ≤ s.failedVoteAttempts a) ∧
    (∀ (s : AVC.State) (v now : Nat),
      (AVC.handleFailedVote s v now).failedVoteAttempts v = s.failedVoteAttempts v + 1 ∧
      (s.failedVoteAttempts v + 1 ≥ AVC.MAX_FAILED_ATTEMPTS →
        (AVC.handleFailedVote s v now).voteLockoutUntil v = now + AVC.VOTE_LOCKOUT_PERIOD)) ∧
    (∀ (s : AVC.State) (caller now eId pId cId : Nat),
      (s.voters caller).isAuthorized → ¬ s.contractPaused →
      now < s.voteLockoutUntil caller →
      AVC.vote s caller now eId pId cId = .error "Voter is temporarily locked out") := by
  refine ⟨?_, ?_, ?_⟩
  · intro s op a
    cases hr : AVC.runOp s op with
    | error m => rw [AVC.step_of_err hr]
    | ok s' =>
      rw [AVC.step_of_ok hr]
      cases op with
      | createElection c n t d st en ty ps =>
        simp only [AVC.runOp, AVC.createElection_ok_iff] at hr
        obtain ⟨-, rfl⟩ := hr
        simp [AVC.createElectionEffect]
      | createPosition c n t d mc mv =>
        simp only [AVC.runOp, AVC.createPosition_ok_iff] at hr
        obtain ⟨-, rfl⟩ := hr
        simp [AVC.createPositionEffect]
      | addCandidate c n e p nm m b =>
        simp only [AVC.runOp, AVC.addCandidate_ok_iff] at hr
        obtain ⟨-, rfl⟩ := hr
        simp [AVC.addCandidateEffect]
      | authorizeVoter c n va m =>
        simp only [AVC.runOp, AVC.authorizeVoter_ok_iff] at hr
        obtain ⟨-, rfl⟩ := hr
        simp [AVC.authorizeVoterEffect]
      | vote c n e p cd =>
        simp only [AVC.runOp, AVC.vote_ok_iff] at hr
        obtain ⟨-, rfl⟩ := hr
        simp [AVC.voteEffect, upd]
        by_cases hv : a = c <;> simp [hv]
      | endElection c n e =>
        simp only [AVC.runOp, AVC.endElection_ok_iff] at hr
        obtain ⟨-, rfl⟩ := hr
        simp
      | addAuthorizedAdmin c n ad =>
        simp only [AVC.runOp, AVC.addAuthorizedAdmin_ok_iff] at hr
        obtain ⟨-, rfl⟩ := hr
        simp
      | removeAuthorizedAdmin c n ad =>
        simp only [AVC.runOp, AVC.removeAuthorizedAdmin_ok_iff] at hr
        obtain ⟨-, rfl⟩ := hr
        simp
      | togglePause c n =>
        simp only [AVC.runOp, AVC.togglePause_ok_iff] at hr
        obtain ⟨-, rfl⟩ := hr
        simp
      | transferOwnership c n o =>
        simp only [AVC.runOp, AVC.transferOwnership_ok_iff] at hr
        obtain ⟨-, rfl⟩ := hr
        simp
      | emergencyPause c n =>
        simp only [AVC.runOp, AVC.emergencyPause_ok_iff] at hr
        obtain ⟨-, rfl⟩ := hr
        simp
  · intro s v now
    constructor
    · by_cases h3 : s.failedVoteAttempts v + 1 ≥ AVC.MAX_FAILED_ATTEMPTS <;>
        simp [AVC.handleFailedVote, upd, h3]
    · intro h3
      simp [AVC.handleFailedVote, upd, if_pos h3]
  · intro s caller now eId pId cId h1 h2 h3
    rw [AVC.vote, require_bind_pos h1, require_bind_pos h2, require_bind_neg (by omega)]

/-- Counterexample to C8 as stated: in the fixture state, authorized voter 7's
vote for the nonexistent candidate 2 fails, yet the failed-attempt counter is
unchanged (the whole call reverts and `_handleFailedVote` is never invoked
from the public vote path). -/
theorem C8_counterexample :
    isErr (AVC.vote AVC.wState 7 10 1 1 2) = true ∧
    AVC.step AVC.wState (.vote 7 10 1 1 2) = AVC.wState ∧
    (AVC.step AVC.wState (.vote 7 10 1 1 2)).failedVoteAttempts 7
      = AVC.wState.failedVoteAttempts 7 := by
  have herr : isErr (AVC.runOp AVC.wState (.vote 7 10 1 1 2)) = true := by decide
  have hstep := AVC.step_eq_self_of_isErr herr
  exact ⟨by decide, hstep, by rw [hstep]⟩

/-- Witness for C8: dead-code `_handleFailedVote` takes account 7's counter
from 2 to 3 = `MAX_FAILED_ATTEMPTS` and sets a lockout until 50 + 3600; and in
a state in which account 7 is locked out until time 100, an authorized vote at
time 50 is rejected with the lockout error. -/
theorem C8_lockout_behavior_witness :
    ((AVC.handleFailedVote { AVC.wState with
        failedVoteAttempts := upd AVC.wState.failedVoteAttempts 7 2 } 7 50).failedVoteAttempts 7
      = { AVC.wState with
        failedVoteAttempts := upd AVC.wState.failedVoteAttempts 7 2 }.failedVoteAttempts 7 + 1) ∧
    ((AVC.handleFailedVote { AVC.wState with
        failedVoteAttempts := upd AVC.wState.failedVoteAttempts 7 2 } 7 50).voteLockoutUntil 7
      = 50 + AVC.VOTE_LOCKOUT_PERIOD) ∧
    AVC.vote { AVC.wState with voteLockoutUntil := upd AVC.wState.voteLockoutUntil 7 100 }
        7 50 1 1 1
      = .error "Voter is temporarily locked out" := by
  obtain ⟨-, hHelper, hLock⟩ := C8_lockout_behavior
  obtain ⟨hinc, hset⟩ := hHelper { AVC.wState with
    failedVoteAttempts := upd AVC.wState.failedVoteAttempts 7 2 } 7 50
  refine ⟨hinc, hset (by decide), ?_⟩
  exact hLock _ 7 50 1 1 1 (by decide) (by decide) (by decide)

/-! ## MSV frame lemmas -/

namespace MSV

theorem executeDispatch_frame {s1 : State} {p : Proposal} {s' : State}
    (h : executeDispatch s1 p = .ok s') :
    s'.proposals = s1.proposals ∧ s'.proposalCount = s1.proposalCount ∧
    s'.transactions = s1.transactions ∧ s'.transactionCount = s1.transactionCount ∧
    s'.isConfirmed = s1.isConfirmed ∧ s'.hasVoted = s1.hasVoted ∧ s'.votes = s1.votes := by
  unfold executeDispatch at h
  cases hpt : p.proposalType <;> simp only [hpt] at h
  case PARAMETER_CHANGE =>
    cases hd : p.executionData <;> simp only [hd] at h
    case reqData r =>
      cases hcr : changeRequirementSelf s1 r with
      | ok s2 =>
        rw [hcr] at h
        rw [pure_ok] at h
        subst h
        rw [changeRequirementSelf_ok_iff] at hcr
        obtain ⟨-, rfl⟩ := hcr
        exact ⟨rfl, rfl, rfl, rfl, rfl, rfl, rfl⟩
      | error m =>
        rw [hcr] at h
        rw [pure_ok] at h
        subst h
        exact ⟨rfl, rfl, rfl, rfl, rfl, rfl, rfl⟩
    case addrData a =>
      rw [pure_ok] at h
      subst h
      exact ⟨rfl, rfl, rfl, rfl, rfl, rfl, rfl⟩
    case rawData =>
      rw [pure_ok] at h
      subst h
      exact ⟨rfl, rfl, rfl, rfl, rfl, rfl, rfl⟩
  case ADMIN_ADDITION =>
    cases hd : p.executionData <;> simp only [hd] at h
    case addrData a =>
      rw [addAdminInternal_ok_iff] at h
      obtain ⟨-, rfl⟩ := h
      exact ⟨rfl, rfl, rfl, rfl, rfl, rfl, rfl⟩
    case reqData r => exact absurd h (by simp)
    case rawData => exact absurd h (by simp)
  case ADMIN_REMOVAL =>
    cases hd : p.executionData <;> simp only [hd] at h
    case addrData a =>
      rw [removeAdminInternal_ok_iff] at h
      obtain ⟨-, rfl⟩ := h
      exact ⟨rfl, rfl, rfl, rfl, rfl, rfl, rfl⟩
    case reqData r => exact absurd h (by simp)
    case rawData => exact absurd h (by simp)
  case EMERGENCY_ACTION =>
    rw [pure_ok] at h
    subst h
    exact ⟨rfl, rfl, rfl, rfl, rfl, rfl, rfl⟩
  case CONTRACT_UPGRADE =>
    rw [pure_ok] at h
    subst h
    exact ⟨rfl, rfl, rfl, rfl, rfl, rfl, rfl⟩

theorem confirm_preserves_proposals {s : State} {caller tid : Nat} {extOk : Bool} {s' : State}
    (h : confirmTransaction s caller tid extOk = .ok s') :
    s'.proposals = s.proposals ∧ s'.proposalCount = s.proposalCount := by
  rw [confirmTransaction_ok_iff] at h
  obtain ⟨-, -, -, hc | hc⟩ := h
  · obtain ⟨-, hexec⟩ := hc
    rw [executeTransaction_ok_iff] at hexec
    obtain ⟨-, rfl⟩ := hexec
    exact ⟨rfl, rfl⟩
  · obtain ⟨-, rfl⟩ := hc
    exact ⟨rfl, rfl⟩

end MSV

namespace MSV

/-- Once a proposal (with a real id) is executed, it stays executed under every
operation, and proposal ids never disappear. -/
theorem step_proposal_executed_mono {s : State} {op : Op} {pid : Nat}
    (hpid : pid < s.proposalCount) (h : (s.proposals pid).executed = true) :
    pid < (step s op).proposalCount ∧ ((step s op).proposals pid).executed = true := by
  cases hr : runOp s op with
  | error m => rw [stepM_of_err hr]; exact ⟨hpid, h⟩
  | ok s' =>
    rw [stepM_of_ok hr]
    cases op with
    | submitTransaction c n ta v d ds ok =>
      simp only [runOp, submitTransaction_ok_iff] at hr
      obtain ⟨-, hc⟩ := hr
      obtain ⟨hp, hpc⟩ := confirm_preserves_proposals hc
      rw [hp, hpc]
      constructor
      · simpa [submitEffect] using hpid
      · simpa [submitEffect] using h
    | confirmTransaction c n t ok =>
      simp only [runOp] at hr
      obtain ⟨hp, hpc⟩ := confirm_preserves_proposals hr
      rw [hp, hpc]
      exact ⟨hpid, h⟩
    | revokeConfirmation c n t =>
      simp only [runOp, revokeConfirmation_ok_iff] at hr
      obtain ⟨-, rfl⟩ := hr
      exact ⟨hpid, h⟩
    | executeTransaction c n t ok =>
      simp only [runOp, executeTransaction_ok_iff] at hr
      obtain ⟨-, rfl⟩ := hr
      exact ⟨hpid, h⟩
    | createProposal c n t d vp ty pl =>
      simp only [runOp, createProposal_ok_iff] at hr
      obtain ⟨-, rfl⟩ := hr
      refine ⟨Nat.lt_succ_of_lt hpid, ?_⟩
      have hne : pid ≠ s.proposalCount := Nat.ne_of_lt hpid
      simpa [upd, hne] using h
    | voteOnProposal c n p0 v =>
      simp only [runOp, voteOnProposal_ok_iff] at hr
      obtain ⟨-, rfl⟩ := hr
      refine ⟨hpid, ?_⟩
      by_cases hp0 : pid = p0
      · subst hp0
        simp only [upd_same]
        split_ifs <;> simpa using h
      · simpa [upd, hp0] using h
    | executeProposal c n p0 =>
      simp only [runOp, executeProposal_ok_iff] at hr
      obtain ⟨-, -, -, -, -, -, hdisp⟩ := hr
      obtain ⟨hp, hpc, -⟩ := executeDispatch_frame hdisp
      rw [hp, hpc]
      refine ⟨hpid, ?_⟩
      by_cases hp0 : pid = p0
      · subst hp0
        simp [upd_same]
      · simpa [upd, hp0] using h
    | changeRequirement n r =>
      simp only [runOp, changeRequirementSelf_ok_iff] at hr
      obtain ⟨-, rfl⟩ := hr
      exact ⟨hpid, h⟩

end MSV

namespace MSV

theorem stepM_eq_self_of_isErr {s : State} {op : Op}
    (h : isErr (runOp s op) = true) : step s op = s := by
  cases hr : runOp s op with
  | ok s' => rw [hr] at h; simp [isErr] at h
  | error m => exact stepM_of_err hr

end MSV

/-- Claim C6: `executeProposal` succeeds only when the current time is strictly
after the proposal's voting deadline, the proposal is not yet executed,
`forVotes` strictly exceeds `againstVotes`, and `forVotes` meets the
`requiredConfirmations` threshold; when any of these fails the call is
rejected with no state change; and a proposal with a real id executes at most
once ever — its executed flag persists under every operation and any further
`executeProposal` call for it fails. -/
theorem C6_execute_proposal_gate :
    (∀ (s : MSV.State) (caller now pid : Nat) (s' : MSV.State),
      MSV.executeProposal s caller now pid = .ok s' → MSV.executeProposalPre s now pid) ∧
    (∀ (s : MSV.State) (caller now pid : Nat),
      ¬ MSV.executeProposalPre s now pid →
        isErr (MSV.executeProposal s caller now pid) = true ∧
        MSV.step s (.executeProposal caller now pid) = s) ∧
    (∀ (s : MSV.State) (op : MSV.Op) (pid : Nat),
      pid < s.proposalCount → (s.proposals pid).executed = true →
        pid < (MSV.step s op).proposalCount ∧
        ((MSV.step s op).proposals pid).executed = true) ∧
    (∀ (s : MSV.State) (caller now pid : Nat),
      (s.proposals pid).executed = true →
        isErr (MSV.executeProposal s caller now pid) = true) := by
  have herr : ∀ (s : MSV.State) (caller now pid : Nat),
      ¬ MSV.executeProposalPre s now pid →
      isErr (MSV.executeProposal s caller now pid) = true := by
    intro s caller now pid hpre
    rw [isErr_true_iff]
    intro x hx
    rw [MSV.executeProposal_ok_iff] at hx
    obtain ⟨-, -, h1, h2, h3, h4, -⟩ := hx
    exact hpre ⟨h1, by simpa using h2, h3, h4⟩
  refine ⟨?_, ?_, ?_, ?_⟩
  · intro s caller now pid s' h
    rw [MSV.executeProposal_ok_iff] at h
    obtain ⟨-, -, h1, h2, h3, h4, -⟩ := h
    exact ⟨h1, by simpa using h2, h3, h4⟩
  · intro s caller now pid hpre
    refine ⟨herr s caller now pid hpre, ?_⟩
    apply MSV.stepM_eq_self_of_isErr
    simpa [MSV.runOp] using herr s caller now pid hpre
  · intro s op pid hpid h
    exact MSV.step_proposal_executed_mono hpid h
  · intro s caller now pid h
    rw [isErr_true_iff]
    intro x hx
    rw [MSV.executeProposal_ok_iff] at hx
    exact hx.2.2.2.1 (by simp [h])

/-- Witness for C6: with admins [1,2,3] and threshold 2, executing the
zero-tally proposal 0 fails with no state change; and for a concrete
already-executed proposal the executed flag survives a `voteOnProposal` step
and re-execution fails. -/
theorem C6_execute_proposal_gate_witness :
    (isErr (MSV.executeProposal MSV.mInit3 1 5 0) = true ∧
      MSV.step MSV.mInit3 (.executeProposal 1 5 0) = MSV.mInit3) ∧
    (0 < (MSV.step { MSV.mInit3 with
        proposals := upd MSV.mInit3.proposals 0
          ⟨0, "t", "", 1, 0, 0, 1, 0, 0, true, .EMERGENCY_ACTION, .rawData⟩,
        proposalCount := 1 } (.voteOnProposal 2 0 0 1)).proposalCount ∧
      ((MSV.step { MSV.mInit3 with
        proposals := upd MSV.mInit3.proposals 0
          ⟨0, "t", "", 1, 0, 0, 1, 0, 0, true, .EMERGENCY_ACTION, .rawData⟩,
        proposalCount := 1 } (.voteOnProposal 2 0 0 1)).proposals 0).executed = true) ∧
    isErr (MSV.executeProposal { MSV.mInit3 with
        proposals := upd MSV.mInit3.proposals 0
          ⟨0, "t", "", 1, 0, 0, 1, 0, 0, true, .EMERGENCY_ACTION, .rawData⟩,
        proposalCount := 1 } 1 5 0) = true := by
  obtain ⟨-, hrej, hmono, hexec⟩ := C6_execute_proposal_gate
  refine ⟨hrej MSV.mInit3 1 5 0 ?_, hmono _ (.voteOnProposal 2 0 0 1) 0 (by decide) (by decide),
    hexec _ 1 5 0 (by decide)⟩
  intro hpre
  exact absurd hpre.2.2.1 (by decide)

namespace MSV

theorem swapRemove_length (l : List Nat) (a : Nat) :
    l.length - 1 ≤ (swapRemove l a).length ∧ (swapRemove l a).length ≤ l.length := by
  unfold swapRemove
  cases h : l.findIdx? (fun x => x == a) with
  | none => exact ⟨Nat.sub_le _ _, Nat.le_refl _⟩
  | some i =>
    have hred : (match some i with
        | none => l
        | some j => (l.set j (l.getLastD 0)).dropLast) = (l.set i (l.getLastD 0)).dropLast := rfl
    rw [hred]
    have hlen : ((l.set i (l.getLastD 0)).dropLast).length = l.length - 1 := by
      simp [List.length_dropLast, List.length_set]
    omega

theorem confirm_preserves_admins {s : State} {caller tid : Nat} {extOk : Bool} {s' : State}
    (h : confirmTransaction s caller tid extOk = .ok s') :
    s'.admins = s.admins ∧ s'.requiredConfirmations = s.requiredConfirmations := by
  rw [confirmTransaction_ok_iff] at h
  obtain ⟨-, -, -, hc | hc⟩ := h
  · obtain ⟨-, hexec⟩ := hc
    rw [executeTransaction_ok_iff] at hexec
    obtain ⟨-, rfl⟩ := hexec
    exact ⟨rfl, rfl⟩
  · obtain ⟨-, rfl⟩ := hc
    exact ⟨rfl, rfl⟩

theorem executeDispatch_validReq {s1 : State} {p : Proposal} {s' : State}
    (hv : validReq s1) (h : executeDispatch s1 p = .ok s') : validReq s' := by
  unfold executeDispatch at h
  cases hpt : p.proposalType <;> simp only [hpt] at h
  case PARAMETER_CHANGE =>
    cases hd : p.executionData <;> simp only [hd] at h
    case reqData r =>
      cases hcr : changeRequirementSelf s1 r with
      | ok s2 =>
        rw [hcr, pure_ok] at h
        subst h
        rw [changeRequirementSelf_ok_iff] at hcr
        obtain ⟨⟨h20, hr1, hr0⟩, rfl⟩ := hcr
        exact ⟨hr0, hr1, h20⟩
      | error m =>
        rw [hcr, pure_ok] at h
        subst h
        exact hv
    case addrData a =>
      rw [pure_ok] at h; subst h; exact hv
    case rawData =>
      rw [pure_ok] at h; subst h; exact hv
  case ADMIN_ADDITION =>
    cases hd : p.executionData <;> simp only [hd] at h
    case addrData a =>
      rw [addAdminInternal_ok_iff] at h
      obtain ⟨⟨-, ⟨-, hle, hpos⟩, -, hmax⟩, rfl⟩ := h
      refine ⟨hpos, by simpa using hle, ?_⟩
      simp only [List.length_append, List.length_cons, List.length_nil]
      omega
    case reqData r => exact absurd h (by simp)
    case rawData => exact absurd h (by simp)
  case ADMIN_REMOVAL =>
    cases hd : p.executionData <;> simp only [hd] at h
    case addrData a =>
      rw [removeAdminInternal_ok_iff] at h
      obtain ⟨⟨-, hgt, hge⟩, rfl⟩ := h
      obtain ⟨hlo, hhi⟩ := swapRemove_length s1.admins a
      obtain ⟨hv1, hv2, hv3⟩ := hv
      refine ⟨hv1, ?_, ?_⟩ <;> simp only [] <;> omega
    case reqData r => exact absurd h (by simp)
    case rawData => exact absurd h (by simp)
  case EMERGENCY_ACTION => rw [pure_ok] at h; subst h; exact hv
  case CONTRACT_UPGRADE => rw [pure_ok] at h; subst h; exact hv

theorem step_validReq {s : State} {op : Op} (hv : validReq s) : validReq (step s op) := by
  cases hr : runOp s op with
  | error m => rw [stepM_of_err hr]; exact hv
  | ok s' =>
    rw [stepM_of_ok hr]
    cases op with
    | submitTransaction c n ta v d ds ok =>
      simp only [runOp, submitTransaction_ok_iff] at hr
      obtain ⟨-, hc⟩ := hr
      obtain ⟨ha, hrq⟩ := confirm_preserves_admins hc
      unfold validReq
      rw [ha, hrq]
      exact hv
    | confirmTransaction c n t ok =>
      simp only [runOp] at hr
      obtain ⟨ha, hrq⟩ := confirm_preserves_admins hr
      unfold validReq
      rw [ha, hrq]
      exact hv
    | revokeConfirmation c n t =>
      simp only [runOp, revokeConfirmation_ok_iff] at hr
      obtain ⟨-, rfl⟩ := hr
      exact hv
    | executeTransaction c n t ok =>
      simp only [runOp, executeTransaction_ok_iff] at hr
      obtain ⟨-, rfl⟩ := hr
      exact hv
    | createProposal c n t d vp ty pl =>
      simp only [runOp, createProposal_ok_iff] at hr
      obtain ⟨-, rfl⟩ := hr
      exact hv
    | voteOnProposal c n p0 v =>
      simp only [runOp, voteOnProposal_ok_iff] at hr
      obtain ⟨-, rfl⟩ := hr
      exact hv
    | executeProposal c n p0 =>
      simp only [runOp, executeProposal_ok_iff] at hr
      obtain ⟨-, -, -, -, -, -, hdisp⟩ := hr
      refine executeDispatch_validReq ?_ hdisp
      exact hv
    | changeRequirement n r =>
      simp only [runOp, changeRequirementSelf_ok_iff] at hr
      obtain ⟨⟨h20, hr1, hr0⟩, rfl⟩ := hr
      exact ⟨hr0, hr1, h20⟩

end MSV

/-- Claim C5: the constructor establishes
`0 < requiredConfirmations ≤ |admins| ≤ MAX_ADMINS`, every governance
operation (including the admin additions/removals and requirement changes
performed through proposal execution) preserves it, and `_removeAdmin` always
fails when the admin array has a single entry or when removing would push the
admin count below the threshold — also when invoked through an
admin-removal proposal. -/
theorem C5_admin_set_invariant :
    (∀ (adminList : List Nat) (required : Nat) (s : MSV.State),
      MSV.initState adminList required = .ok s → MSV.validReq s) ∧
    (∀ (s : MSV.State) (op : MSV.Op), MSV.validReq s → MSV.validReq (MSV.step s op)) ∧
    (∀ (s : MSV.State) (a : Nat), s.admins.length = 1 →
      isErr (MSV.removeAdminInternal s a) = true) ∧
    (∀ (s : MSV.State) (a : Nat), s.admins.length - 1 < s.requiredConfirmations →
      isErr (MSV.removeAdminInternal s a) = true) ∧
    (∀ (s : MSV.State) (caller now pid : Nat),
      (s.proposals pid).proposalType = .ADMIN_REMOVAL →
      s.admins.length - 1 < s.requiredConfirmations →
      isErr (MSV.executeProposal s caller now pid) = true) := by
  refine ⟨?_, ?_, ?_, ?_, ?_⟩
  · intro adminList required s h
    rw [MSV.initState_ok_iff] at h
    obtain ⟨⟨⟨h20, hle, hpos⟩, -⟩, rfl⟩ := h
    exact ⟨hpos, hle, h20⟩
  · intro s op hv
    exact MSV.step_validReq hv
  · intro s a hlen
    rw [isErr_true_iff]
    intro x hx
    rw [MSV.removeAdminInternal_ok_iff] at hx
    obtain ⟨⟨-, hgt, -⟩, -⟩ := hx
    omega
  · intro s a hlt
    rw [isErr_true_iff]
    intro x hx
    rw [MSV.removeAdminInternal_ok_iff] at hx
    obtain ⟨⟨-, -, hge⟩, -⟩ := hx
    omega
  · intro s caller now pid hty hlt
    rw [isErr_true_iff]
    intro x hx
    rw [MSV.executeProposal_ok_iff] at hx
    obtain ⟨-, -, -, -, -, -, hdisp⟩ := hx
    unfold MSV.executeDispatch at hdisp
    rw [hty] at hdisp
    cases hd : (s.proposals pid).executionData <;> rw [hd] at hdisp
    case addrData a =>
      rw [MSV.removeAdminInternal_ok_iff] at hdisp
      obtain ⟨⟨-, -, hge⟩, -⟩ := hdisp
      simp only [] at hge
      omega
    case reqData r => exact absurd hdisp (by simp)
    case rawData => exact absurd hdisp (by simp)

/-- Witness for C5: the constructor accepts admins [1,2,3] with threshold 2
and the invariant holds; a requirement change to 3 preserves it; removing from
a one-admin array fails; and with admins [1,2] and threshold 2 a removal —
directly or through an executed admin-removal proposal — fails. -/
theorem C5_admin_set_invariant_witness :
    MSV.validReq MSV.mInit3 ∧
    MSV.validReq (MSV.step MSV.mInit3 (.changeRequirement 0 3)) ∧
    isErr (MSV.removeAdminInternal
      { MSV.mInit2 with
        admins := [1]
        isAdmin := fun a => a == 1 } 1) = true ∧
    isErr (MSV.removeAdminInternal MSV.mInit2 1) = true ∧
    isErr (MSV.executeProposal { MSV.mInit2 with
      proposals := upd MSV.mInit2.proposals 0
        ⟨0, "t", "", 1, 0, 0, 2, 0, 0, false, .ADMIN_REMOVAL, .addrData 1⟩,
      proposalCount := 1 } 1 5 0) = true := by
  obtain ⟨hinit, hstep, hlast, hbreak, hprop⟩ := C5_admin_set_invariant
  have hv3 : MSV.validReq MSV.mInit3 :=
    hinit [1, 2, 3] 2 MSV.mInit3 rfl
  refine ⟨hv3, hstep MSV.mInit3 (.changeRequirement 0 3) hv3, ?_, ?_, ?_⟩
  · exact hlast _ 1 (by decide)
  · exact hbreak _ 1 (by decide)
  · exact hprop _ 1 5 0 (by decide) (by decide)

namespace MSV

theorem submitEffect_TxInv {s : State} {now toAddr value : Nat} {dataStr descr : String}
    (hInv : TxInv s) : TxInv (submitEffect s now toAddr value dataStr descr) := by
  intro t ht
  by_cases htc : t = s.transactionCount
  · subst htc
    simp [submitEffect, upd] at ht
  · simp only [submitEffect] at ht ⊢
    rw [upd_other _ _ _ htc] at ht ⊢
    exact hInv t ht

theorem confirm_TxInv {s : State} {caller tid : Nat} {extOk : Bool} {s' : State}
    (hInv : TxInv s) (h : confirmTransaction s caller tid extOk = .ok s') : TxInv s' := by
  rw [confirmTransaction_ok_iff] at h
  obtain ⟨-, -, -, hc | hc⟩ := h
  · obtain ⟨hth, hexec⟩ := hc
    rw [executeTransaction_ok_iff] at hexec
    obtain ⟨⟨-, -, hconf, -⟩, rfl⟩ := hexec
    intro t ht
    by_cases htc : t = tid
    · subst htc
      unfold isTransactionConfirmed at hconf
      simp [confirmEffect, upd] at hconf
      simp [executeEffect, confirmEffect, upd]
      omega
    · simp only [executeEffect, confirmEffect] at ht ⊢
      rw [upd_other _ _ _ htc, upd_other _ _ _ htc] at ht ⊢
      exact hInv t ht
  · obtain ⟨hth, rfl⟩ := hc
    intro t ht
    by_cases htc : t = tid
    · subst htc
      simp only [confirmEffect] at ht ⊢
      rw [upd_same] at ht ⊢
      simp only [] at ht
      have := hInv t ht
      simp only []
      omega
    · simp only [confirmEffect] at ht ⊢
      rw [upd_other _ _ _ htc] at ht ⊢
      exact hInv t ht

theorem step_TxInv {s : State} {op : Op} (hInv : TxInv s)
    (hreq : (step s op).requiredConfirmations = s.requiredConfirmations) :
    TxInv (step s op) := by
  cases hr : runOp s op with
  | error m => rw [stepM_of_err hr]; exact hInv
  | ok s' =>
    rw [stepM_of_ok hr] at hreq ⊢
    cases op with
    | submitTransaction c n ta v d ds ok =>
      simp only [runOp, submitTransaction_ok_iff] at hr
      obtain ⟨-, hc⟩ := hr
      exact confirm_TxInv (submitEffect_TxInv hInv) hc
    | confirmTransaction c n t ok =>
      simp only [runOp] at hr
      exact confirm_TxInv hInv hr
    | revokeConfirmation c n t =>
      simp only [runOp, revokeConfirmation_ok_iff] at hr
      obtain ⟨⟨-, -, hnex, -, -⟩, rfl⟩ := hr
      intro t' ht'
      by_cases htc : t' = t
      · subst htc
        simp only [revokeEffect] at ht'
        rw [upd_same] at ht'
        simp only [] at ht'
        exact absurd ht' (by simpa using hnex)
      · simp only [revokeEffect] at ht' ⊢
        rw [upd_other _ _ _ htc] at ht' ⊢
        exact hInv t' ht'
    | executeTransaction c n t ok =>
      simp only [runOp, executeTransaction_ok_iff] at hr
      obtain ⟨⟨-, -, hconf, -⟩, rfl⟩ := hr
      intro t' ht'
      by_cases htc : t' = t
      · subst htc
        unfold isTransactionConfirmed at hconf
        simp at hconf
        simp [executeEffect, upd]
        omega
      · simp only [executeEffect] at ht' ⊢
        rw [upd_other _ _ _ htc] at ht' ⊢
        exact hInv t' ht'
    | createProposal c n t d vp ty pl =>
      simp only [runOp, createProposal_ok_iff] at hr
      obtain ⟨-, rfl⟩ := hr
      exact hInv
    | voteOnProposal c n p0 v =>
      simp only [runOp, voteOnProposal_ok_iff] at hr
      obtain ⟨-, rfl⟩ := hr
      exact hInv
    | executeProposal c n p0 =>
      simp only [runOp, executeProposal_ok_iff] at hr
      obtain ⟨-, -, -, -, -, -, hdisp⟩ := hr
      obtain ⟨-, -, htx, -, -⟩ := executeDispatch_frame hdisp
      intro t ht
      rw [htx] at ht
      rw [htx, hreq]
      exact hInv t ht
    | changeRequirement n r =>
      simp only [runOp, changeRequirementSelf_ok_iff] at hr
      obtain ⟨-, rfl⟩ := hr
      intro t ht
      have hr' : r = s.requiredConfirmations := by simpa using hreq
      simp only [] at ht ⊢
      rw [hr']
      exact hInv t ht

end MSV

/-- Claim C4: with the confirmation threshold fixed, a pending transaction
executes exactly at the moment its threshold-reaching confirmation lands (a
successful `confirmTransaction` on a not-yet-executed transaction leaves it
executed iff the incremented distinct-confirmation count reaches
`requiredConfirmations`); executed transactions always satisfy
`confirmationCount ≥ requiredConfirmations` (established by the constructor
and preserved by every requirement-preserving operation, so execution never
happens below the threshold); and once the executed flag is set, every further
`confirmTransaction` or `executeTransaction` call for that id fails. -/
theorem C4_transaction_threshold :
    (∀ (adminList : List Nat) (required : Nat) (s : MSV.State),
      MSV.initState adminList required = .ok s → MSV.TxInv s) ∧
    (∀ (s : MSV.State) (op : MSV.Op),
      MSV.TxInv s →
      (MSV.step s op).requiredConfirmations = s.requiredConfirmations →
      MSV.TxInv (MSV.step s op)) ∧
    (∀ (s : MSV.State) (caller tid : Nat) (extOk : Bool) (s' : MSV.State),
      (s.transactions tid).executed = false →
      MSV.confirmTransaction s caller tid extOk = .ok s' →
      ((s'.transactions tid).executed = true ↔
        s.requiredConfirmations ≤ (s.transactions tid).confirmationCount + 1) ∧
      (s'.transactions tid).confirmationCount
        = (s.transactions tid).confirmationCount + 1) ∧
    (∀ (s : MSV.State) (tid : Nat),
      MSV.TxInv s → (s.transactions tid).executed = true →
      (∀ (caller : Nat) (extOk : Bool),
        isErr (MSV.confirmTransaction s caller tid extOk) = true) ∧
      (∀ extOk : Bool, isErr (MSV.executeTransaction s tid extOk) = true)) := by
  refine ⟨?_, ?_, ?_, ?_⟩
  · intro adminList required s h
    rw [MSV.initState_ok_iff] at h
    obtain ⟨-, rfl⟩ := h
    intro t ht
    simp [MSV.Transaction.zero] at ht
  · intro s op hInv hreq
    exact MSV.step_TxInv hInv hreq
  · intro s caller tid extOk s' hex h
    rw [MSV.confirmTransaction_ok_iff] at h
    obtain ⟨-, -, -, hc | hc⟩ := h
    · obtain ⟨hth, hexec⟩ := hc
      rw [MSV.executeTransaction_ok_iff] at hexec
      obtain ⟨⟨-, -, hconf, -⟩, rfl⟩ := hexec
      unfold MSV.isTransactionConfirmed at hconf
      simp [MSV.confirmEffect, upd] at hconf
      constructor
      · constructor
        · intro _
          exact hconf
        · intro _
          simp [MSV.executeEffect, MSV.confirmEffect, upd]
      · simp [MSV.executeEffect, MSV.confirmEffect, upd]
    · obtain ⟨hth, rfl⟩ := hc
      constructor
      · constructor
        · intro habs
          simp [MSV.confirmEffect, upd, hex] at habs
        · intro hge
          exfalso
          apply hth
          unfold MSV.isTransactionConfirmed
          simp [MSV.confirmEffect, upd]
          exact hge
      · simp [MSV.confirmEffect, upd]
  · intro s tid hInv hex
    constructor
    · intro caller extOk
      rw [isErr_true_iff]
      intro x hx
      rw [MSV.confirmTransaction_ok_iff] at hx
      obtain ⟨-, -, -, hc | hc⟩ := hx
      · obtain ⟨-, hexec⟩ := hc
        rw [MSV.executeTransaction_ok_iff] at hexec
        obtain ⟨⟨-, hnex, -⟩, -⟩ := hexec
        apply hnex
        simp [MSV.confirmEffect, upd, hex]
      · obtain ⟨hth, -⟩ := hc
        apply hth
        have := hInv tid hex
        unfold MSV.isTransactionConfirmed
        simp [MSV.confirmEffect, upd]
        omega
    · intro extOk
      rw [isErr_true_iff]
      intro x hx
      rw [MSV.executeTransaction_ok_iff] at hx
      exact hx.1.2.1 (by simp [hex])

/-- Witness for C4: admins [1,2,3], threshold 2.  Admin 1 submits transaction
0 (auto-confirm, count 1, not executed); admin 2's confirmation is the second
distinct one and the transaction auto-executes exactly then; admin 3's
confirmation afterwards fails, as does a direct re-execution. -/
theorem C4_transaction_threshold_witness :
    MSV.TxInv MSV.mInit3 ∧
    (MSV.m3afterSubmit.transactions 0).executed = false ∧
    (MSV.m3afterSubmit.transactions 0).confirmationCount = 1 ∧
    MSV.confirmTransaction MSV.m3afterSubmit 2 0 true = .ok MSV.m3afterConfirm ∧
    (MSV.m3afterConfirm.transactions 0).executed = true ∧
    isErr (MSV.confirmTransaction MSV.m3afterConfirm 3 0 true) = true ∧
    isErr (MSV.executeTransaction MSV.m3afterConfirm 0 true) = true := by
  obtain ⟨hinit, hstep, hmoment, hfrozen⟩ := C4_transaction_threshold
  have hInv0 : MSV.TxInv MSV.mInit3 := hinit [1, 2, 3] 2 MSV.mInit3 rfl
  have hIsub : MSV.TxInv MSV.m3afterSubmit :=
    hstep MSV.mInit3 (.submitTransaction 1 0 9 0 "d" "desc" true) hInv0 (by decide)
  have hIconf : MSV.TxInv MSV.m3afterConfirm :=
    hstep MSV.m3afterSubmit (.confirmTransaction 2 0 0 true) hIsub (by decide)
  have hconf : MSV.confirmTransaction MSV.m3afterSubmit 2 0 true = .ok MSV.m3afterConfirm := rfl
  have hmom := hmoment MSV.m3afterSubmit 2 0 true MSV.m3afterConfirm (by decide) hconf
  have hfr := hfrozen MSV.m3afterConfirm 0 hIconf (hmom.1.mpr (by decide))
  exact ⟨hInv0, by decide, by decide, hconf, hmom.1.mpr (by decide),
    hfr.1 3 true, hfr.2 true⟩

/-! ## Sum bookkeeping lemmas for the tally invariant -/

theorem sum_map_upd_not_mem {l : List Nat} {f : Nat → Nat} {c0 v : Nat} (h : c0 ∉ l) :
    (l.map (upd f c0 v)).sum = (l.map f).sum := by
  induction l with
  | nil => rfl
  | cons x xs ih =>
    simp only [List.map_cons, List.sum_cons]
    have hx : x ≠ c0 := by
      intro he
      exact h (by simp [he])
    rw [upd_other _ _ _ hx, ih (fun hm => h (by simp [hm]))]

theorem sum_map_upd_mem {l : List Nat} {f : Nat → Nat} {c0 : Nat}
    (hn : l.Nodup) (h : c0 ∈ l) :
    (l.map (upd f c0 (f c0 + 1))).sum = (l.map f).sum + 1 := by
  induction l with
  | nil => simp at h
  | cons x xs ih =>
    simp only [List.map_cons, List.sum_cons]
    rcases List.mem_cons.mp h with he | hm
    · subst he
      rw [upd_same]
      rw [sum_map_upd_not_mem (List.nodup_cons.mp hn).1]
      omega
    · have hx : x ≠ c0 := fun he' => (List.nodup_cons.mp hn).1 (he' ▸ hm)
      rw [upd_other _ _ _ hx, ih (List.nodup_cons.mp hn).2 hm]
      omega

theorem sum_map_add_at {l : List Nat} {g g' : Nat → Nat} (p0 : Nat)
    (hn : l.Nodup) (hp : p0 ∈ l)
    (hsame : ∀ p ∈ l, p ≠ p0 → g' p = g p) (hbump : g' p0 = g p0 + 1) :
    (l.map g').sum = (l.map g).sum + 1 := by
  induction l with
  | nil => simp at hp
  | cons x xs ih =>
    simp only [List.map_cons, List.sum_cons]
    rcases List.mem_cons.mp hp with he | hm
    · subst he
      rw [hbump]
      have hnot : p0 ∉ xs := (List.nodup_cons.mp hn).1
      have hxs : xs.map g' = xs.map g := by
        apply List.map_congr_left
        intro p hp'
        exact hsame p (by simp [hp']) (fun he' => hnot (he' ▸ hp'))
      rw [hxs]
      omega
    · have hx : x ≠ p0 := fun he' => (List.nodup_cons.mp hn).1 (he' ▸ hm)
      rw [hsame x (by simp) hx,
        ih (List.nodup_cons.mp hn).2 hm (fun p hp' hne => hsame p (by simp [hp']) hne)]
      omega

theorem sum_map_congr {l : List Nat} {g g' : Nat → Nat}
    (hsame : ∀ p ∈ l, g' p = g p) : (l.map g').sum = (l.map g).sum := by
  rw [List.map_congr_left hsame]

namespace AVC

theorem voteCount_voteEffect (s : State) (caller e0 p0 c0 : Nat) :
    (fun c => ((voteEffect s caller e0 p0 c0).candidates c).voteCount)
      = upd (fun c => (s.candidates c).voteCount) c0 ((s.candidates c0).voteCount + 1) := by
  funext c
  by_cases hc : c = c0 <;> simp [voteEffect, upd, hc]

theorem voteCount_addCandidateEffect (s : State) (now e0 p0 : Nat) (nm m b : String) :
    (fun c => ((addCandidateEffect s now e0 p0 nm m b).candidates c).voteCount)
      = fun c => (s.candidates c).voteCount := by
  funext c
  by_cases hc : c = s.candidateCount + 1 <;> simp [addCandidateEffect, upd, hc]

theorem step_tallyInv {s : State} {op : Op} (hInv : tallyInv s) : tallyInv (step s op) := by
  obtain ⟨h1, h2, h3, h4, h5⟩ := hInv
  cases hr : runOp s op with
  | error m => rw [step_of_err hr]; exact ⟨h1, h2, h3, h4, h5⟩
  | ok s' =>
    rw [step_of_ok hr]
    cases op with
    | authorizeVoter c n va m =>
      simp only [runOp, authorizeVoter_ok_iff] at hr
      obtain ⟨-, rfl⟩ := hr
      exact ⟨h1, h2, h3, h4, h5⟩
    | addAuthorizedAdmin c n ad =>
      simp only [runOp, addAuthorizedAdmin_ok_iff] at hr
      obtain ⟨-, rfl⟩ := hr
      exact ⟨h1, h2, h3, h4, h5⟩
    | removeAuthorizedAdmin c n ad =>
      simp only [runOp, removeAuthorizedAdmin_ok_iff] at hr
      obtain ⟨-, rfl⟩ := hr
      exact ⟨h1, h2, h3, h4, h5⟩
    | togglePause c n =>
      simp only [runOp, togglePause_ok_iff] at hr
      obtain ⟨-, rfl⟩ := hr
      exact ⟨h1, h2, h3, h4, h5⟩
    | transferOwnership c n o =>
      simp only [runOp, transferOwnership_ok_iff] at hr
      obtain ⟨-, rfl⟩ := hr
      exact ⟨h1, h2, h3, h4, h5⟩
    | emergencyPause c n =>
      simp only [runOp, emergencyPause_ok_iff] at hr
      obtain ⟨-, rfl⟩ := hr
      exact ⟨h1, h2, h3, h4, h5⟩
    | createElection c n t d st en ty ps =>
      simp only [runOp, createElection_ok_iff] at hr
      obtain ⟨-, rfl⟩ := hr
      refine ⟨h1, h2, h3, h4, ?_⟩
      intro e
      have htal : electionTally (createElectionEffect s c t d st en ty ps) e
          = electionTally s e := rfl
      rw [htal, h5 e]
      simp only [createElectionEffect]
      by_cases he : e = s.electionCount + 1
      · rw [he, upd_same]
      · rw [upd_other _ _ _ he]
    | endElection c n e0 =>
      simp only [runOp, endElection_ok_iff] at hr
      obtain ⟨-, rfl⟩ := hr
      refine ⟨h1, h2, h3, h4, ?_⟩
      intro e
      have htal : electionTally
          { s with elections := upd s.elections e0 ({ s.elections e0 with isActive := false }) } e
          = electionTally s e := rfl
      rw [htal, h5 e]
      by_cases he : e = e0
      · rw [he]
        simp [upd]
      · simp only []
        rw [upd_other _ _ _ he]
    | createPosition c n t d mc mv =>
      simp only [runOp, createPosition_ok_iff] at hr
      obtain ⟨-, rfl⟩ := hr
      refine ⟨?_, h2, h3, h4, ?_⟩
      · intro e p cd hc
        obtain ⟨ha, hb, hcc⟩ := h1 e p cd hc
        exact ⟨ha, Nat.le_succ_of_le hb, hcc⟩
      · intro e
        have hpc : (createPositionEffect s t d mc mv).positionCount = s.positionCount + 1 := rfl
        have hct : ∀ p, candTally (createPositionEffect s t d mc mv) e p = candTally s e p :=
          fun p => rfl
        have hempty : s.positionCandidates e (1 + s.positionCount) = [] := by
          cases hpc' : s.positionCandidates e (1 + s.positionCount) with
          | nil => rfl
          | cons x xs =>
            exfalso
            have hx := h1 e (1 + s.positionCount) x (by rw [hpc']; simp)
            omega
        unfold electionTally
        rw [hpc]
        rw [List.range'_concat]
        simp only [List.map_append, List.sum_append, List.map_cons, List.map_nil,
          List.sum_cons, List.sum_nil]
        have hc0 : candTally (createPositionEffect s t d mc mv) e (1 + 1 * s.positionCount) = 0 := by
          rw [hct]
          unfold candTally
          have : (1 : Nat) + 1 * s.positionCount = 1 + s.positionCount := by ring
          rw [this, hempty]
          rfl
        rw [hc0]
        have hrest : ((List.range' 1 s.positionCount).map
            (fun p => candTally (createPositionEffect s t d mc mv) e p)).sum
            = ((List.range' 1 s.positionCount).map (fun p => candTally s e p)).sum := by
          apply sum_map_congr
          intro p _
          exact hct p
        rw [hrest]
        have htot : ((createPositionEffect s t d mc mv).elections e).totalVotes
            = (s.elections e).totalVotes := rfl
        rw [htot]
        have h5e := h5 e
        unfold electionTally at h5e
        omega
    | addCandidate c n e0 p0 nm m b =>
      simp only [runOp, addCandidate_ok_iff] at hr
      obtain ⟨⟨-, -, hp0, -, -, -, -, -, -, -⟩, rfl⟩ := hr
      have hcc1 : ∀ e p cd, cd ∈ (addCandidateEffect s n e0 p0 nm m b).positionCandidates e p →
          (cd ∈ s.positionCandidates e p ∨ (e = e0 ∧ p = p0 ∧ cd = s.candidateCount + 1)) := by
        intro e p cd hc
        simp only [addCandidateEffect] at hc
        by_cases he : e = e0
        · by_cases hp : p = p0
          · rw [he, hp] at hc ⊢
            rw [upd_same, upd_same] at hc
            rcases List.mem_append.mp hc with hcc | hcc
            · exact Or.inl hcc
            · simp at hcc
              exact Or.inr ⟨rfl, rfl, hcc⟩
          · rw [he] at hc ⊢
            rw [upd_same, upd_other _ _ _ hp] at hc
            exact Or.inl hc
        · rw [upd_other _ _ _ he] at hc
          exact Or.inl hc
      refine ⟨?_, ?_, ?_, ?_, ?_⟩
      · intro e p cd hc
        rcases hcc1 e p cd hc with hcc | ⟨-, rfl, rfl⟩
        · obtain ⟨ha, hb, hcb⟩ := h1 e p cd hcc
          exact ⟨ha, hb, Nat.le_succ_of_le hcb⟩
        · exact ⟨hp0.2, hp0.1, Nat.le_refl _⟩
      · intro e p e' p' cd hc hc'
        rcases hcc1 e p cd hc with hcc | ⟨he, hp, hcd⟩
        · rcases hcc1 e' p' cd hc' with hcc' | ⟨he', hp', hcd'⟩
          · exact h2 e p e' p' cd hcc hcc'
          · exfalso
            obtain ⟨-, -, hb⟩ := h1 e p cd hcc
            omega
        · rcases hcc1 e' p' cd hc' with hcc' | ⟨he', hp', hcd'⟩
          · exfalso
            obtain ⟨-, -, hb⟩ := h1 e' p' cd hcc'
            omega
          · subst he; subst hp; subst he'; subst hp'
            exact ⟨rfl, rfl⟩
      · intro e p
        simp only [addCandidateEffect]
        by_cases he : e = e0
        · by_cases hp : p = p0
          · rw [he, hp, upd_same, upd_same]
            refine List.Nodup.append (h3 e0 p0) (by simp) ?_
            intro x hx hx'
            simp at hx'
            obtain ⟨-, -, hb⟩ := h1 e0 p0 x hx
            omega
          · rw [he, upd_same, upd_other _ _ _ hp]
            exact h3 e0 p
        · rw [upd_other _ _ _ he]
          exact h3 e p
      · intro cd hcd
        have hccn : (addCandidateEffect s n e0 p0 nm m b).candidateCount
            = s.candidateCount + 1 := rfl
        rw [hccn] at hcd
        have hne : cd ≠ s.candidateCount + 1 := by omega
        have hval := h4 cd (by omega)
        simp only [addCandidateEffect]
        rw [upd_other _ _ _ hne]
        exact hval
      · intro e
        have hzero : (s.candidates (s.candidateCount + 1)).voteCount = 0 :=
          h4 _ (Nat.lt_succ_self _)
        have htot : ((addCandidateEffect s n e0 p0 nm m b).elections e).totalVotes
            = (s.elections e).totalVotes := rfl
        rw [htot, ← h5 e]
        unfold electionTally
        have hpcn : (addCandidateEffect s n e0 p0 nm m b).positionCount = s.positionCount := rfl
        rw [hpcn]
        apply sum_map_congr
        intro p hpmem
        unfold candTally
        rw [voteCount_addCandidateEffect s n e0 p0 nm m b]
        simp only [addCandidateEffect]
        by_cases he : e = e0
        · by_cases hp : p = p0
          · rw [he, hp, upd_same, upd_same]
            simp only [List.map_append, List.sum_append, List.map_cons, List.map_nil,
              List.sum_cons, List.sum_nil]
            rw [hzero]
            omega
          · rw [he, upd_same, upd_other _ _ _ hp]
        · rw [upd_other _ _ _ he]
    | vote c n e0 p0 c0 =>
      simp only [runOp, vote_ok_iff] at hr
      obtain ⟨hpre, rfl⟩ := hr
      obtain ⟨-, -, -, -, -, -, -, hp0, -, -, -, -, -, hc0⟩ := hpre
      refine ⟨h1, h2, h3, ?_, ?_⟩
      · intro cd hcd
        have hccn : (voteEffect s c e0 p0 c0).candidateCount = s.candidateCount := rfl
        rw [hccn] at hcd
        have hbound := (h1 e0 p0 c0 hc0).2.2
        have hne : cd ≠ c0 := by omega
        have hval := h4 cd hcd
        simp only [voteEffect]
        rw [upd_other _ _ _ hne]
        exact hval
      · intro e
        have hpcn : (voteEffect s c e0 p0 c0).positionCount = s.positionCount := rfl
        by_cases he : e = e0
        · subst he
          have htot : ((voteEffect s c e p0 c0).elections e).totalVotes
              = (s.elections e).totalVotes + 1 := by
            simp [voteEffect, upd]
          rw [htot, ← h5 e]
          unfold electionTally
          rw [hpcn]
          apply sum_map_add_at p0 (List.nodup_range' 1 s.positionCount)
            (by rw [List.mem_range'_1]; omega)
          · intro p hpmem hpne
            unfold candTally
            rw [voteCount_voteEffect s c e p0 c0]
            have hnotin : c0 ∉ (voteEffect s c e p0 c0).positionCandidates e p := by
              intro hin
              have hpc : (voteEffect s c e p0 c0).positionCandidates = s.positionCandidates := rfl
              rw [hpc] at hin
              exact hpne (h2 e p e p0 c0 hin hc0).2
            have hpc : (voteEffect s c e p0 c0).positionCandidates = s.positionCandidates := rfl
            rw [hpc] at hnotin ⊢
            exact sum_map_upd_not_mem hnotin
          · unfold candTally
            rw [voteCount_voteEffect s c e p0 c0]
            have hpc : (voteEffect s c e p0 c0).positionCandidates = s.positionCandidates := rfl
            rw [hpc]
            exact sum_map_upd_mem (h3 e p0) hc0
        · have htot : ((voteEffect s c e0 p0 c0).elections e).totalVotes
              = (s.elections e).totalVotes := by
            simp [voteEffect, upd_other _ _ _ he]
          rw [htot, ← h5 e]
          unfold electionTally
          rw [hpcn]
          apply sum_map_congr
          intro p hpmem
          unfold candTally
          rw [voteCount_voteEffect s c e0 p0 c0]
          have hnotin : c0 ∉ s.positionCandidates e p := by
            intro hin
            exact he (h2 e p e0 p0 c0 hin hc0).1
          exact sum_map_upd_not_mem hnotin

end AVC

namespace AVC

theorem run_tallyInv (tr : List Op) (s : State) (h : tallyInv s) : tallyInv (run s tr) := by
  induction tr generalizing s with
  | nil => exact h
  | cons op rest ih => exact ih (step s op) (step_tallyInv h)

theorem initState_tallyInv (deployer : Nat) : tallyInv (initState deployer) := by
  refine ⟨?_, ?_, ?_, ?_, ?_⟩
  · intro e p c hc
    simp [initState] at hc
  · intro e p e' p' c hc
    simp [initState] at hc
  · intro e p
    simp [initState]
  · intro c _
    simp [initState, Candidate.zero]
  · intro e
    simp [electionTally, candTally, initState, Election.zero]

theorem step_totalVotes (s : State) (op : Op) (e : Nat) :
    ((step s op).elections e).totalVotes
      = (s.elections e).totalVotes + (match op with
        | .vote _ _ e' _ _ => if e' = e ∧ isErr (runOp s op) = false then 1 else 0
        | _ => 0) := by
  cases hr : runOp s op with
  | error m =>
    rw [step_of_err hr]
    cases op <;> simp [hr, isErr]
  | ok s' =>
    rw [step_of_ok hr]
    cases op with
    | vote c n e' p' cd =>
      have hne : isErr (runOp s (.vote c n e' p' cd)) = false := by rw [hr]; rfl
      simp only [hne]
      simp only [runOp] at hr
      rw [vote_ok_iff] at hr
      obtain ⟨-, rfl⟩ := hr
      by_cases he : e' = e
      · subst he
        simp [voteEffect, upd, isErr]
      · have hne' : e ≠ e' := fun hx => he hx.symm
        simp only [voteEffect]
        rw [upd_other _ _ _ hne']
        simp [he, isErr]
    | createElection c n t d st en ty ps =>
      simp only [runOp, createElection_ok_iff] at hr
      obtain ⟨-, rfl⟩ := hr
      simp only [createElectionEffect]
      by_cases he : e = s.electionCount + 1
      · rw [he, upd_same]
        simp
      · rw [upd_other _ _ _ he]
        simp
    | createPosition c n t d mc mv =>
      simp only [runOp, createPosition_ok_iff] at hr
      obtain ⟨-, rfl⟩ := hr
      rfl
    | addCandidate c n e0 p0 nm m b =>
      simp only [runOp, addCandidate_ok_iff] at hr
      obtain ⟨-, rfl⟩ := hr
      rfl
    | authorizeVoter c n va m =>
      simp only [runOp, authorizeVoter_ok_iff] at hr
      obtain ⟨-, rfl⟩ := hr
      rfl
    | endElection c n e0 =>
      simp only [runOp, endElection_ok_iff] at hr
      obtain ⟨-, rfl⟩ := hr
      by_cases he : e = e0
      · rw [he]
        simp [upd]
      · simp only []
        rw [upd_other _ _ _ he]
        simp
    | addAuthorizedAdmin c n ad =>
      simp only [runOp, addAuthorizedAdmin_ok_iff] at hr
      obtain ⟨-, rfl⟩ := hr
      rfl
    | removeAuthorizedAdmin c n ad =>
      simp only [runOp, removeAuthorizedAdmin_ok_iff] at hr
      obtain ⟨-, rfl⟩ := hr
      rfl
    | togglePause c n =>
      simp only [runOp, togglePause_ok_iff] at hr
      obtain ⟨-, rfl⟩ := hr
      rfl
    | transferOwnership c n o =>
      simp only [runOp, transferOwnership_ok_iff] at hr
      obtain ⟨-, rfl⟩ := hr
      rfl
    | emergencyPause c n =>
      simp only [runOp, emergencyPause_ok_iff] at hr
      obtain ⟨-, rfl⟩ := hr
      rfl

theorem run_totalVotes (tr : List Op) (s : State) (e : Nat) :
    ((run s tr).elections e).totalVotes
      = (s.elections e).totalVotes + succVotesFor s tr e := by
  induction tr generalizing s with
  | nil => simp [run, succVotesFor]
  | cons op rest ih =>
    simp only [run, succVotesFor]
    rw [ih (step s op), step_totalVotes]
    omega

theorem step_counters_frame {s : State} {op : Op} (h : isSuccessfulVote s op = false) :
    (∀ c, ((step s op).candidates c).voteCount = (s.candidates c).voteCount) ∧
    (∀ e, ((step s op).elections e).totalVotes = (s.elections e).totalVotes) := by
  cases hr : runOp s op with
  | error m => rw [step_of_err hr]; exact ⟨fun _ => rfl, fun _ => rfl⟩
  | ok s' =>
    rw [step_of_ok hr]
    cases op with
    | vote c n e' p' cd =>
      exfalso
      simp [isSuccessfulVote, hr, isErr] at h
    | createElection c n t d st en ty ps =>
      simp only [runOp, createElection_ok_iff] at hr
      obtain ⟨-, rfl⟩ := hr
      refine ⟨fun _ => rfl, fun e => ?_⟩
      simp only [createElectionEffect]
      by_cases he : e = s.electionCount + 1
      · rw [he, upd_same]
      · rw [upd_other _ _ _ he]
    | createPosition c n t d mc mv =>
      simp only [runOp, createPosition_ok_iff] at hr
      obtain ⟨-, rfl⟩ := hr
      exact ⟨fun _ => rfl, fun _ => rfl⟩
    | addCandidate c n e0 p0 nm m b =>
      simp only [runOp, addCandidate_ok_iff] at hr
      obtain ⟨-, rfl⟩ := hr
      refine ⟨fun c' => ?_, fun _ => rfl⟩
      exact congrFun (voteCount_addCandidateEffect s n e0 p0 nm m b) c'
    | authorizeVoter c n va m =>
      simp only [runOp, authorizeVoter_ok_iff] at hr
      obtain ⟨-, rfl⟩ := hr
      exact ⟨fun _ => rfl, fun _ => rfl⟩
    | endElection c n e0 =>
      simp only [runOp, endElection_ok_iff] at hr
      obtain ⟨-, rfl⟩ := hr
      refine ⟨fun _ => rfl, fun e => ?_⟩
      by_cases he : e = e0
      · rw [he]
        simp [upd]
      · simp only []
        rw [upd_other _ _ _ he]
    | addAuthorizedAdmin c n ad =>
      simp only [runOp, addAuthorizedAdmin_ok_iff] at hr
      obtain ⟨-, rfl⟩ := hr
      exact ⟨fun _ => rfl, fun _ => rfl⟩
    | removeAuthorizedAdmin c n ad =>
      simp only [runOp, removeAuthorizedAdmin_ok_iff] at hr
      obtain ⟨-, rfl⟩ := hr
      exact ⟨fun _ => rfl, fun _ => rfl⟩
    | togglePause c n =>
      simp only [runOp, togglePause_ok_iff] at hr
      obtain ⟨-, rfl⟩ := hr
      exact ⟨fun _ => rfl, fun _ => rfl⟩
    | transferOwnership c n o =>
      simp only [runOp, transferOwnership_ok_iff] at hr
      obtain ⟨-, rfl⟩ := hr
      exact ⟨fun _ => rfl, fun _ => rfl⟩
    | emergencyPause c n =>
      simp only [runOp, emergencyPause_ok_iff] at hr
      obtain ⟨-, rfl⟩ := hr
      exact ⟨fun _ => rfl, fun _ => rfl⟩

end AVC

/-- Claim C10: after any sequence of operations from a fresh contract, every
election's `totalVotes` equals the sum of the vote counters of the candidates
registered under it (summed over all its positions' candidate lists) and also
equals the number of successful `vote` calls targeting it along the history;
and no call other than a successful `vote` changes any candidate's vote
counter or any election's total vote counter. -/
theorem C10_tally_consistency :
    (∀ (deployer : Nat) (tr : List AVC.Op) (e : Nat),
      ((AVC.run (AVC.initState deployer) tr).elections e).totalVotes
        = AVC.electionTally (AVC.run (AVC.initState deployer) tr) e ∧
      ((AVC.run (AVC.initState deployer) tr).elections e).totalVotes
        = AVC.succVotesFor (AVC.initState deployer) tr e) ∧
    (∀ (s : AVC.State) (op : AVC.Op), AVC.isSuccessfulVote s op = false →
      (∀ c, ((AVC.step s op).candidates c).voteCount = (s.candidates c).voteCount) ∧
      (∀ e, ((AVC.step s op).elections e).totalVotes = (s.elections e).totalVotes)) := by
  constructor
  · intro deployer tr e
    have hInv := AVC.run_tallyInv tr _ (AVC.initState_tallyInv deployer)
    have hcount := AVC.run_totalVotes tr (AVC.initState deployer) e
    have hinit : ((AVC.initState deployer).elections e).totalVotes = 0 := rfl
    exact ⟨(hInv.2.2.2.2 e).symm, by omega⟩
  · intro s op h
    exact AVC.step_counters_frame h

/-- Witness for C10: along `ceTrace` election 1 records one vote, matching
both its candidate-counter sum and the number of successful vote calls for it;
and a failed vote call leaves candidate 1's counter unchanged. -/
theorem C10_tally_consistency_witness :
    ((AVC.run (AVC.initState 100) AVC.ceTrace).elections 1).totalVotes
      = AVC.electionTally (AVC.run (AVC.initState 100) AVC.ceTrace) 1 ∧
    ((AVC.run (AVC.initState 100) AVC.ceTrace).elections 1).totalVotes
      = AVC.succVotesFor (AVC.initState 100) AVC.ceTrace 1 ∧
    ((AVC.run (AVC.initState 100) AVC.ceTrace).elections 1).totalVotes = 1 ∧
    AVC.isSuccessfulVote AVC.wState (.vote 7 10 1 1 2) = false ∧
    ((AVC.step AVC.wState (.vote 7 10 1 1 2)).candidates 1).voteCount
      = (AVC.wState.candidates 1).voteCount := by
  obtain ⟨hpart1, hpart2⟩ := C10_tally_consistency
  obtain ⟨h1, h2⟩ := hpart1 100 AVC.ceTrace 1
  have hfail : AVC.isSuccessfulVote AVC.wState (.vote 7 10 1 1 2) = false := by decide
  exact ⟨h1, h2, by decide, hfail, (hpart2 AVC.wState _ hfail).1 1⟩
